import Mathlib

/-!
# Verification of the kalandra protocol engine

A shallow embedding of the kalandra end-to-end encrypted group messaging
stack (client state machine, server room manager / sequencer, wire codec)
together with proofs of the specification's claims about it.

Machine integers are embedded as `Nat`; byte strings as `List Nat` whose
elements are byte values.  Fallible Rust functions returning `Result` are
embedded as `Except`.  Components whose Rust source is not part of the
provided sources (the proto crate, the core MLS adapter, the crypto
ratchet, the sequencer, the storage layer and the connection state
machine) are modelled from the specification; each such definition says so
in its doc comment.
-/

namespace Kalandra

/-! ## Association-list embedding of the Rust `HashMap`s -/

/-- `HashMap::get` on an association list. -/
def alistLookup {α : Type} (l : List (Nat × α)) (k : Nat) : Option α :=
  (l.find? (fun p => p.1 = k)).map (·.2)

/-- `HashMap::get_mut` followed by an in-place write. -/
def alistUpdate {α : Type} (l : List (Nat × α)) (k : Nat) (v : α) : List (Nat × α) :=
  l.map (fun p => if p.1 = k then (p.1, v) else p)

/-! ## Byte-level helpers -/

/-- Big-endian interpretation of a byte list (as in `u64::from_be_bytes`). -/
def beBytesToNat (bs : List Nat) : Nat :=
  bs.foldl (fun acc b => acc * 256 + b) 0

/-- Big-endian encoding of `v` into `w` bytes (as in `to_be_bytes`). -/
def natToBeBytes (v w : Nat) : List Nat :=
  (List.range w).map (fun i => v / 256 ^ (w - 1 - i) % 256)

/-- Little-endian encoding of `v` into `w` bytes (as in `to_le_bytes`). -/
def natToLeBytes (v w : Nat) : List Nat :=
  (List.range w).map (fun i => v / 256 ^ i % 256)

/-- Little-endian interpretation of a byte list. -/
def leBytesToNat (bs : List Nat) : Nat :=
  bs.foldr (fun b acc => acc * 256 + b) 0

/-! ## Wire frame codec (kalandra-proto)

The proto crate's source is not among the provided files; the frame
header layout is modelled from the specification (§6: fixed 128-byte
little-endian header with the listed field offsets) and from how the
provided sources use it (`FrameHeader::new`, the setters, and the
accessors). -/

/-- Modelled from the spec: the `Opcode` enum of kalandra-proto (§3 of the
spec lists the variants); the proto crate's source is missing.  The
concrete `u16` values are not observable in the provided sources, so the
model numbers the variants in the spec's order. -/
inductive Opcode
  | hello
  | helloReply
  | ping
  | pong
  | goodbye
  | appMessage
  | commit
  | proposal
  | welcome
  | syncRequest
  | syncResponse
  | error
  deriving DecidableEq, Repr

/-- Modelled from the spec: the `u16` wire value of an opcode. -/
def Opcode.toU16 : Opcode → Nat
  | .hello => 0
  | .helloReply => 1
  | .ping => 2
  | .pong => 3
  | .goodbye => 4
  | .appMessage => 5
  | .commit => 6
  | .proposal => 7
  | .welcome => 8
  | .syncRequest => 9
  | .syncResponse => 10
  | .error => 11

/-- Modelled from the spec: `Opcode::from_u16` / `FrameHeader::opcode_enum`;
unknown opcodes yield `none` (spec §3: "Unknown opcodes are rejected"). -/
def opcodeFromU16 : Nat → Option Opcode
  | 0 => some .hello
  | 1 => some .helloReply
  | 2 => some .ping
  | 3 => some .pong
  | 4 => some .goodbye
  | 5 => some .appMessage
  | 6 => some .commit
  | 7 => some .proposal
  | 8 => some .welcome
  | 9 => some .syncRequest
  | 10 => some .syncResponse
  | 11 => some .error
  | _ => none

/-- Modelled from the spec: the wire magic constant (its concrete value is
not observable in the provided sources). -/
def MAGIC : Nat := 0x4b414c44

/-- Modelled from the spec: the supported protocol version. -/
def VERSION : Nat := 1

/-- Modelled from the spec: the fixed 128-byte frame header (§6 byte
layout: magic 4, version 2, opcode 2, room_id 16, sender_id 8, epoch 8,
log_index 8, payload_size 4, hlc_timestamp 8, context_id 8, reserved 60).
Fields are embedded as `Nat`. -/
structure FrameHeader where
  magic : Nat
  version : Nat
  opcode : Nat
  room_id : Nat
  sender_id : Nat
  epoch : Nat
  log_index : Nat
  payload_size : Nat
  hlc_timestamp : Nat
  context_id : Nat
  deriving DecidableEq, Repr

/-- Modelled from the spec: `FrameHeader::new(opcode)` — a fresh header
with the magic, version and opcode set and every other field zero (the
client tests rely on `log_index` starting at 0). -/
def FrameHeader.new (op : Opcode) : FrameHeader :=
  { magic := MAGIC, version := VERSION, opcode := op.toU16, room_id := 0,
    sender_id := 0, epoch := 0, log_index := 0, payload_size := 0,
    hlc_timestamp := 0, context_id := 0 }

/-- `FrameHeader::opcode_enum`. -/
def FrameHeader.opcode_enum (h : FrameHeader) : Option Opcode :=
  opcodeFromU16 h.opcode

/-- A wire frame: fixed header plus opaque payload bytes. -/
structure Frame where
  header : FrameHeader
  payload : List Nat
  deriving DecidableEq, Repr

/-- Modelled from the spec: serialising the 128-byte header at the §6
offsets, little-endian, with 60 reserved zero bytes. -/
def FrameHeader.encode (h : FrameHeader) : List Nat :=
  natToLeBytes h.magic 4 ++ natToLeBytes h.version 2 ++ natToLeBytes h.opcode 2 ++
  natToLeBytes h.room_id 16 ++ natToLeBytes h.sender_id 8 ++ natToLeBytes h.epoch 8 ++
  natToLeBytes h.log_index 8 ++ natToLeBytes h.payload_size 4 ++
  natToLeBytes h.hlc_timestamp 8 ++ natToLeBytes h.context_id 8 ++
  List.replicate 60 0

/-- Modelled from the spec: `Frame::encode` (§4.1 "Encoding concatenates
header bytes then payload"); the header's `payload_size` field is the
payload's length. -/
def Frame.encode (f : Frame) : List Nat :=
  FrameHeader.encode { f.header with payload_size := f.payload.length } ++ f.payload

/-- Modelled from the spec: reading the header fields back from 128 raw
bytes at the §6 offsets (this is what `zerocopy`'s
`FrameHeader::ref_from_bytes` gives the server's stream reader — a pure
reinterpretation with no semantic validation). -/
def FrameHeader.fromBytes (bs : List Nat) : FrameHeader :=
  { magic := leBytesToNat (bs.take 4)
    version := leBytesToNat ((bs.drop 4).take 2)
    opcode := leBytesToNat ((bs.drop 6).take 2)
    room_id := leBytesToNat ((bs.drop 8).take 16)
    sender_id := leBytesToNat ((bs.drop 24).take 8)
    epoch := leBytesToNat ((bs.drop 32).take 8)
    log_index := leBytesToNat ((bs.drop 40).take 8)
    payload_size := leBytesToNat ((bs.drop 48).take 4)
    hlc_timestamp := leBytesToNat ((bs.drop 52).take 8)
    context_id := leBytesToNat ((bs.drop 60).take 8) }

/-- The configured maximum payload size (spec §4.1: default 1 MiB). -/
def MAX_PAYLOAD : Nat := 1048576

/-- Modelled from the spec: `Frame::decode` (§4.1: read exactly 128 header
bytes then exactly `payload_size` more; validate magic, supported
version, recognised opcode and `payload_size ≤ MAX_PAYLOAD`; any
shortfall, bad magic or unknown opcode yields a `FrameDecode` error; the
decoder is total). -/
def Frame.decode (bs : List Nat) : Except String Frame :=
  if bs.length < 128 then .error "short header"
  else
    let h := FrameHeader.fromBytes (bs.take 128)
    if h.magic ≠ MAGIC then .error "bad magic"
    else if h.version ≠ VERSION then .error "unsupported version"
    else if (opcodeFromU16 h.opcode).isNone then .error "unknown opcode"
    else if h.payload_size > MAX_PAYLOAD then .error "payload too large"
    else if bs.length ≠ 128 + h.payload_size then .error "length mismatch"
    else .ok { header := h, payload := bs.drop 128 }

/-! ## Encrypted AppMessage payload (kalandra-crypto / kalandra-client)

`EncryptedMessage` and the (de)serialisation of the AppMessage payload.
The (de)serialisers are embedded from
`crates/kalandra-client/src/client.rs` (`serialize_encrypted_message`,
`deserialize_encrypted_message`), which are present in the sources. -/

/-- `EncryptedMessage` (spec §3): epoch, sender leaf index, ratchet
generation, 24-byte nonce, AEAD ciphertext. -/
structure EncryptedMessage where
  epoch : Nat
  sender_index : Nat
  generation : Nat
  nonce : List Nat
  ciphertext : List Nat
  deriving DecidableEq, Repr

/-- `serialize_encrypted_message` from `kalandra-client/src/client.rs`:
epoch (8 BE) ‖ sender_index (4 BE) ‖ generation (4 BE) ‖ nonce ‖
ciphertext_len (4 BE) ‖ ciphertext. -/
def serialize_encrypted_message (e : EncryptedMessage) : List Nat :=
  natToBeBytes e.epoch 8 ++ natToBeBytes e.sender_index 4 ++
  natToBeBytes e.generation 4 ++ e.nonce ++
  natToBeBytes e.ciphertext.length 4 ++ e.ciphertext

/-- The `ciphertext_len` field a byte string declares at offset 40
(big-endian `u32`), as read by the deserialiser. -/
def declaredCiphertextLen (data : List Nat) : Nat :=
  beBytesToNat ((data.drop 40).take 4)

/-- `deserialize_encrypted_message` from
`kalandra-client/src/client.rs`.  The Rust `try_into` conversions cannot
fail once `data.len() ≥ 44`, so the embedding keeps only the two length
checks the source performs. -/
def deserialize_encrypted_message (data : List Nat) : Except String EncryptedMessage :=
  if data.length < 44 then .error "Frame too short"
  else
    let ciphertext_len := declaredCiphertextLen data
    if data.length < 44 + ciphertext_len then .error "Truncated ciphertext"
    else
      .ok { epoch := beBytesToNat (data.take 8)
            sender_index := beBytesToNat ((data.drop 8).take 4)
            generation := beBytesToNat ((data.drop 12).take 4)
            nonce := (data.drop 16).take 24
            ciphertext := (data.drop 44).take ciphertext_len }

/-- The AppMessage payload layout exactly as the spec words it (§6):
"epoch (8, BE) ‖ sender_index (4, BE) ‖ generation (4, BE) ‖ nonce (24) ‖
ciphertext_len (4, BE) ‖ ciphertext", i.e. the fields read at the fixed
big-endian offsets 0, 8, 12, 16 and 44.  Declared separately from the
source-derived deserialiser so the two can be compared. -/
def specAppMessageFields (data : List Nat) : EncryptedMessage :=
  { epoch := beBytesToNat (data.take 8)
    sender_index := beBytesToNat ((data.drop 8).take 4)
    generation := beBytesToNat ((data.drop 12).take 4)
    nonce := (data.drop 16).take 24
    ciphertext := (data.drop 44).take (beBytesToNat ((data.drop 40).take 4)) }

/-! ## Sender-key ratchet (kalandra-crypto)

The crypto crate's source is not among the provided files.  The ratchet is
modelled from the specification (§4.2): per-member symmetric chains, HKDF
key derivation, XChaCha20-Poly1305 AEAD (whose ciphertext is the
plaintext's length plus a 16-byte tag), a 24-byte nonce made of an 8-byte
generation counter plus 16 caller-supplied random bytes, and a
fast-forward window of 1024 generations.  The KDF and AEAD themselves are
abstracted by concrete injective-enough mixing functions: the claims
proved below depend only on lengths, generations and success/failure
shapes, never on cryptographic properties. -/

/-- `NONCE_RANDOM_SIZE` from kalandra-crypto (spec §3: 16 random bytes). -/
def NONCE_RANDOM_SIZE : Nat := 16

/-- Modelled from the spec: the receiver fast-forward window (§4.2,
default 1024). -/
def GENERATION_WINDOW : Nat := 1024

/-- Modelled from the spec: a stand-in for `HKDF-Expand(key, label, 32)`;
only its determinism matters to the proved claims. -/
def hkdfExpand (key label : Nat) : Nat :=
  (key * 2654435761 + label * 40503 + 97) % 2 ^ 256

/-- Modelled from the spec: `ChainState` (§3): generation counter plus
current chain key. -/
structure ChainState where
  generation : Nat
  chain_key : Nat
  deriving DecidableEq, Repr

/-- Modelled from the spec: one ratchet step — derive the next chain key
and bump the generation (§4.2 "chain_key_N+1 = HKDF-Expand(chain_key_N,
"chain", 32)"). -/
def ChainState.step (c : ChainState) : ChainState :=
  { generation := c.generation + 1, chain_key := hkdfExpand c.chain_key 2 }

/-- Modelled from the spec: the message key drawn from a chain state
(§4.2 "message_key = HKDF-Expand(chain_key_N, "msg-key", 32)"). -/
def ChainState.messageKey (c : ChainState) : Nat :=
  hkdfExpand c.chain_key 1

/-- Modelled from the spec: AEAD sealing — ciphertext is the masked
plaintext followed by a 16-byte tag, so its length is the plaintext's
plus 16 (XChaCha20-Poly1305). -/
def aeadSeal (key : Nat) (plaintext : List Nat) : List Nat :=
  plaintext.map (fun b => (b + key) % 256) ++
    List.replicate 16 (hkdfExpand key 3 % 256)

/-- Modelled from the spec: AEAD opening — strip and verify the 16-byte
tag, unmask; failure is `none`. -/
def aeadOpen (key : Nat) (ciphertext : List Nat) : Option (List Nat) :=
  if ciphertext.length < 16 then none
  else
    let body := ciphertext.take (ciphertext.length - 16)
    let tag := ciphertext.drop (ciphertext.length - 16)
    if tag = List.replicate 16 (hkdfExpand key 3 % 256) then
      some (body.map (fun b => (b + (256 - key % 256)) % 256))
    else none

/-- `SenderKeyError` from kalandra-crypto (spec §4.2 error kinds). -/
inductive SenderKeyError
  | tooOldGeneration
  | generationGap
  | aeadFailed
  | unknownSender
  | noKeyForEpoch
  deriving DecidableEq, Repr

/-- `SenderKeyError::is_fatal` (spec §4.2: "`AeadFailed` and
`UnknownSender` are fatal; others are recoverable"). -/
def SenderKeyError.is_fatal : SenderKeyError → Bool
  | .aeadFailed => true
  | .unknownSender => true
  | _ => false

/-- Modelled from the spec: `SenderKeyStore` (§3) — per-epoch mapping from
member leaf index to chain state, embedded as an association list. -/
structure SenderKeyStore where
  epoch : Nat
  chains : List (Nat × ChainState)
  deriving DecidableEq, Repr

/-- Look up the chain for a leaf index. -/
def SenderKeyStore.chain (s : SenderKeyStore) (leaf : Nat) : Option ChainState :=
  alistLookup s.chains leaf

/-- `SenderKeyStore::generation` — the current generation for a leaf
index (used by the client tests). -/
def SenderKeyStore.generation (s : SenderKeyStore) (leaf : Nat) : Option Nat :=
  (s.chain leaf).map (·.generation)

/-- Replace the chain stored for a leaf index. -/
def SenderKeyStore.setChain (s : SenderKeyStore) (leaf : Nat) (c : ChainState) :
    SenderKeyStore :=
  { s with chains := alistUpdate s.chains leaf c }

/-- Modelled from the spec: `SenderKeyStore::initialize_epoch` (§4.2) —
one fresh chain per member leaf index, generation 0, chain key derived
from the exported epoch secret. -/
def SenderKeyStore.initialize_epoch (epoch_secret : Nat) (epoch : Nat)
    (member_indices : List Nat) : SenderKeyStore :=
  { epoch
    chains := member_indices.map
      (fun leaf => (leaf, ⟨0, hkdfExpand epoch_secret leaf⟩)) }

/-- Modelled from the spec: `SenderKeyStore::encrypt` (§4.2) — draw the
message key for the sender's own chain, seal, build the 24-byte nonce
from the 8-byte big-endian generation counter and the 16 caller-supplied
random bytes, return the `EncryptedMessage` carrying the current
generation, and advance the ratchet by one step. -/
def SenderKeyStore.encrypt (s : SenderKeyStore) (leaf : Nat)
    (plaintext random_bytes : List Nat) :
    Except SenderKeyError (EncryptedMessage × SenderKeyStore) :=
  match s.chain leaf with
  | none => .error .unknownSender
  | some c =>
      .ok ({ epoch := s.epoch
             sender_index := leaf
             generation := c.generation
             nonce := natToBeBytes c.generation 8 ++ random_bytes
             ciphertext := aeadSeal c.messageKey plaintext },
           s.setChain leaf c.step)

/-- Iterate the ratchet step `n` times. -/
def ChainState.stepN (c : ChainState) : Nat → ChainState
  | 0 => c
  | n + 1 => (c.stepN n).step

/-- Advance a chain state until it reaches a target generation. -/
def ChainState.fastForward (c : ChainState) (target : Nat) : ChainState :=
  c.stepN (target - c.generation)

/-- Modelled from the spec: `SenderKeyStore::decrypt` (§4.2) — locate the
sender's mirror chain, reject generations outside the fast-forward
window (`TooOldGeneration` behind, `GenerationGap` ahead), fast-forward,
open the AEAD (failure is `AeadFailed`), and retain the advanced chain. -/
def SenderKeyStore.decrypt (s : SenderKeyStore) (msg : EncryptedMessage) :
    Except SenderKeyError (List Nat × SenderKeyStore) :=
  match s.chain msg.sender_index with
  | none => .error .unknownSender
  | some c =>
      if msg.generation + GENERATION_WINDOW < c.generation then
        .error .tooOldGeneration
      else if c.generation + GENERATION_WINDOW < msg.generation then
        .error .generationGap
      else
        let c' := c.fastForward msg.generation
        match aeadOpen c'.messageKey msg.ciphertext with
        | none => .error .aeadFailed
        | some plaintext =>
            .ok (plaintext, s.setChain msg.sender_index c'.step)

/-! ## Client state machine (kalandra-client)

Embedded from `crates/kalandra-client/src/client.rs` and
`crates/kalandra-client/src/error.rs`, which are present in the sources.
The MLS group the client holds per room is modelled from the spec (§4.3)
because the kalandra-core MLS adapter's source is missing: the model
keeps the fields the client handlers actually consult — the epoch
counter, the member leaf indices, the own leaf index and an opaque seed
for `export_secret`. -/

/-- `ClientError` from `kalandra-client/src/error.rs`. -/
inductive ClientError
  | roomNotFound (room_id : Nat)
  | epochMismatch (expected actual : Nat)
  | roomAlreadyExists (room_id : Nat)
  | mls (reason : String)
  | senderKey (e : SenderKeyError)
  | invalidFrame (reason : String)
  | invalidState (reason : String)
  | syncRequired (room_id target_epoch : Nat)
  deriving DecidableEq, Repr

/-- `ClientError::is_fatal` from `kalandra-client/src/error.rs`:
`InvalidFrame`, `InvalidState` and `Mls` are fatal, sender-key errors
defer to `SenderKeyError::is_fatal`, everything else is transient. -/
def ClientError.is_fatal : ClientError → Bool
  | .invalidFrame _ => true
  | .invalidState _ => true
  | .mls _ => true
  | .senderKey e => e.is_fatal
  | .roomNotFound _ => false
  | .roomAlreadyExists _ => false
  | .epochMismatch _ _ => false
  | .syncRequired _ _ => false

/-- Modelled from the spec: the client-side `MlsGroup` (§4.3); the
kalandra-core adapter's source is missing.  Only the members the client
handlers consult are kept. -/
structure ClientMlsGroup where
  epoch : Nat
  member_leaf_indices : List Nat
  own_leaf_index : Nat
  secret_seed : Nat
  deriving DecidableEq, Repr

/-- Modelled from the spec: `MlsGroup::export_secret` (§4.3) — a
deterministic secret bound to the group's seed and current epoch. -/
def ClientMlsGroup.export_secret (g : ClientMlsGroup) : Nat :=
  hkdfExpand g.secret_seed g.epoch

/-- Modelled from the spec: `MlsGroup::process_message` (§4.3) — a Commit
merge advances the epoch by exactly 1; Proposals and other MLS messages
leave the epoch unchanged.  The MLS-internal actions are not observable
in the provided sources, so the model emits none. -/
def ClientMlsGroup.process_message (g : ClientMlsGroup) (frame : Frame) :
    ClientMlsGroup × List Unit :=
  if frame.header.opcode_enum = some .commit then
    ({ g with epoch := g.epoch + 1 }, [])
  else (g, [])

/-- `MlsAction` of kalandra-core as the client's
`convert_mls_actions` matches on it (the variant shapes are visible in
`client.rs`; the enum's own source is missing). -/
inductive MlsAction
  | sendCommit (frame : Frame)
  | sendProposal (frame : Frame)
  | sendMessage (frame : Frame)
  | sendWelcome (frame : Frame) (member_id : Nat)
  | deliverMessage (sender : Nat) (plaintext : List Nat)
  | removeGroup (reason : String)
  | log (message : String)
  deriving DecidableEq, Repr

/-- `RoomStateSnapshot` as built by `Client::handle_commit` (the
`PersistRoom` payload). -/
structure RoomStateSnapshot where
  room_id : Nat
  epoch : Nat
  mls_state : List Nat
  my_leaf_index : Nat
  deriving DecidableEq, Repr

/-- `ClientAction` from kalandra-client (variants as used in
`client.rs`). -/
inductive ClientAction
  | send (frame : Frame)
  | deliverMessage (room_id sender_id : Nat) (plaintext : List Nat)
      (log_index timestamp : Nat)
  | roomRemoved (room_id : Nat) (reason : String)
  | persistRoom (snapshot : RoomStateSnapshot)
  | log (message : String)
  deriving DecidableEq, Repr

/-- `Client::convert_mls_actions` from `kalandra-client/src/client.rs`:
send-like MLS actions become `Send`; `DeliverMessage` and `RemoveGroup`
become client actions with the hard-coded `room_id = 0` (and, for
`DeliverMessage`, `log_index = 0` and `timestamp = 0`), as the source's
`// TODO: Track room context` comments note. -/
def convert_mls_actions (acts : List MlsAction) : List ClientAction :=
  acts.filterMap fun a =>
    match a with
    | .sendCommit f => some (.send f)
    | .sendProposal f => some (.send f)
    | .sendMessage f => some (.send f)
    | .sendWelcome f _ => some (.send f)
    | .deliverMessage s p => some (.deliverMessage 0 s p 0 0)
    | .removeGroup r => some (.roomRemoved 0 r)
    | .log m => some (.log m)

/-- Per-room client state (`RoomState` in `client.rs`). -/
structure RoomState where
  mls_group : ClientMlsGroup
  sender_keys : SenderKeyStore
  my_leaf_index : Nat
  deriving DecidableEq, Repr

/-- Client state (`Client` in `client.rs`): identity, room map (embedded
as an association list) and the Environment's randomness, embedded as
the byte stream `random_bytes` calls will consume. -/
structure Client where
  sender_id : Nat
  rooms : List (Nat × RoomState)
  env_random : List Nat
  deriving DecidableEq, Repr

/-- Room lookup (`self.rooms.get(&room_id)`). -/
def lookupRoom (rooms : List (Nat × RoomState)) (room_id : Nat) : Option RoomState :=
  alistLookup rooms room_id

/-- In-place room update (the `get_mut` mutations). -/
def updateRoom (rooms : List (Nat × RoomState)) (room_id : Nat) (r : RoomState) :
    List (Nat × RoomState) :=
  alistUpdate rooms room_id r

/-- `ClientEvent` (the variants of `client.rs` that the verified claims
exercise; room creation and joining depend on unprovided MLS
constructors and are not needed by any claim). -/
inductive ClientEvent
  | sendMessage (room_id : Nat) (plaintext : List Nat)
  | frameReceived (frame : Frame)
  | leaveRoom (room_id : Nat)
  | tick (now : Nat)

/-- `Client::initialize_sender_keys` from `client.rs`: re-derive one chain
per member leaf index from the exported epoch secret. -/
def Client.initialize_sender_keys (g : ClientMlsGroup) : SenderKeyStore :=
  SenderKeyStore.initialize_epoch g.export_secret g.epoch g.member_leaf_indices

/-- `Client::handle_send_message` from `client.rs`: look up the room (else
`RoomNotFound`), draw 16 random bytes from the Environment, encrypt on
the own leaf's ratchet, serialise, and emit exactly one `Send` whose
header carries the room id, the client's sender id and the room's
current epoch (every other header field, `log_index` included, stays at
`FrameHeader::new`'s zero). -/
def Client.handle_send_message (c : Client) (room_id : Nat) (plaintext : List Nat) :
    Except ClientError (List ClientAction × Client) :=
  match lookupRoom c.rooms room_id with
  | none => .error (.roomNotFound room_id)
  | some room =>
      let random_bytes := (c.env_random ++ List.replicate NONCE_RANDOM_SIZE 0).take
        NONCE_RANDOM_SIZE
      match room.sender_keys.encrypt room.my_leaf_index plaintext random_bytes with
      | .error e => .error (.senderKey e)
      | .ok (encrypted, keys') =>
          let payload := serialize_encrypted_message encrypted
          let header := { FrameHeader.new .appMessage with
                          room_id := room_id
                          sender_id := c.sender_id
                          epoch := room.mls_group.epoch }
          .ok ([.send ⟨header, payload⟩],
               { c with
                 rooms := updateRoom c.rooms room_id { room with sender_keys := keys' }
                 env_random := c.env_random.drop NONCE_RANDOM_SIZE })

/-- `Client::handle_app_message` from `client.rs`: look up the room (else
`RoomNotFound`); reject a frame whose header epoch differs from the
room's MLS epoch with `EpochMismatch{expected, actual}`; otherwise
deserialise (errors surface as `InvalidFrame`), decrypt, and emit
exactly one `DeliverMessage` carrying the header's sender, log index and
HLC timestamp. -/
def Client.handle_app_message (c : Client) (room_id : Nat) (frame : Frame) :
    Except ClientError (List ClientAction × Client) :=
  match lookupRoom c.rooms room_id with
  | none => .error (.roomNotFound room_id)
  | some room =>
      if frame.header.epoch ≠ room.mls_group.epoch then
        .error (.epochMismatch room.mls_group.epoch frame.header.epoch)
      else
        match deserialize_encrypted_message frame.payload with
        | .error e => .error (.invalidFrame e)
        | .ok encrypted =>
            match room.sender_keys.decrypt encrypted with
            | .error e => .error (.senderKey e)
            | .ok (plaintext, keys') =>
                let room' : RoomState := { room with sender_keys := keys' }
                .ok ([.deliverMessage room_id frame.header.sender_id plaintext
                        frame.header.log_index frame.header.hlc_timestamp],
                     { c with rooms := updateRoom c.rooms room_id room' })

/-- `Client::handle_commit` from `client.rs`: delegate to the MLS group,
convert its actions, re-derive the sender keys and own leaf index from
the post-commit group, and append a `PersistRoom` snapshot (whose
`mls_state` the source leaves empty). -/
def Client.handle_commit (c : Client) (room_id : Nat) (frame : Frame) :
    Except ClientError (List ClientAction × Client) :=
  match lookupRoom c.rooms room_id with
  | none => .error (.roomNotFound room_id)
  | some room =>
      let (g', _mls_actions) := room.mls_group.process_message frame
      let sender_keys := Client.initialize_sender_keys g'
      let leaf := g'.own_leaf_index
      let room' : RoomState := { mls_group := g', sender_keys, my_leaf_index := leaf }
      .ok ([.persistRoom { room_id, epoch := g'.epoch, mls_state := [],
                           my_leaf_index := leaf }],
           { c with rooms := updateRoom c.rooms room_id room' })

/-- `Client::handle_frame` from `client.rs`: dispatch on the opcode;
unknown opcodes are fatal `InvalidFrame`, `Welcome` is an `InvalidState`
(KeyPackage management unimplemented), other MLS opcodes go to the MLS
group. -/
def Client.handle_frame (c : Client) (frame : Frame) :
    Except ClientError (List ClientAction × Client) :=
  let room_id := frame.header.room_id
  match frame.header.opcode_enum with
  | none => .error (.invalidFrame "Unknown opcode")
  | some .appMessage => c.handle_app_message room_id frame
  | some .commit => c.handle_commit room_id frame
  | some .welcome =>
      .error (.invalidState "Welcome frame processing requires KeyPackage management")
  | some _ =>
      match lookupRoom c.rooms room_id with
      | none => .error (.roomNotFound room_id)
      | some room =>
          let (g', _mls_actions) := room.mls_group.process_message frame
          let room' : RoomState := { room with mls_group := g' }
          .ok ([], { c with rooms := updateRoom c.rooms room_id room' })

/-- `Client::handle_leave_room` from `client.rs`. -/
def Client.handle_leave_room (c : Client) (room_id : Nat) :
    Except ClientError (List ClientAction × Client) :=
  if (lookupRoom c.rooms room_id).isNone then .error (.roomNotFound room_id)
  else
    .ok ([.roomRemoved room_id "Left room"],
         { c with rooms := c.rooms.filter (fun p => p.1 ≠ room_id) })

/-- `Client::handle` from `client.rs` (event dispatch; `Tick` currently
emits no actions). -/
def Client.handle (c : Client) (event : ClientEvent) :
    Except ClientError (List ClientAction × Client) :=
  match event with
  | .sendMessage room_id plaintext => c.handle_send_message room_id plaintext
  | .frameReceived frame => c.handle_frame frame
  | .leaveRoom room_id => c.handle_leave_room room_id
  | .tick _ => .ok ([], c)

/-! ## Server-side MLS state and storage

`MlsGroupState`, the `Storage` trait and its `MemoryStorage`
implementation are not among the provided sources; they are modelled
from the spec (§3 `MlsGroupState`, §6 storage interface) and from how the
provided tests construct them.  The per-room frame log is a list whose
position is the log index — exactly the append-only,
compare-and-set-on-expected-index log of §5. -/

/-- Modelled from the spec: the server's replicated `MlsGroupState` (§3):
room, epoch and ordered member list.  The provided tests build states
via `MlsGroupState::new(room_id, epoch, [0u8;32], members, vec![])` and
member frames then validate, so per-member key material is modelled as
present exactly for members. -/
structure MlsGroupState where
  room_id : Nat
  epoch : Nat
  members : List Nat
  deriving DecidableEq, Repr

/-- `MlsGroupState::is_member`. -/
def MlsGroupState.is_member (s : MlsGroupState) (member_id : Nat) : Bool :=
  s.members.contains member_id

/-- `MlsGroupState::member_key` — key material is stored per member. -/
def MlsGroupState.member_key (s : MlsGroupState) (member_id : Nat) : Option Nat :=
  if s.members.contains member_id then some member_id else none

/-- Modelled from the spec: the storage backend (§6): a per-room
append-only frame log (list position = log index) plus per-room MLS
state. -/
structure Storage where
  frames : Nat → List Frame
  mls_states : Nat → Option MlsGroupState

/-- Storage with no frames and the given MLS states. -/
def Storage.init (mls_states : Nat → Option MlsGroupState) : Storage :=
  { frames := fun _ => [], mls_states }

/-- `Storage::load_frames(room, from, limit)` — up to `limit` frames
starting at log index `from`. -/
def Storage.load_frames (s : Storage) (room_id from_log_index limit : Nat) : List Frame :=
  ((s.frames room_id).drop from_log_index).take limit

/-- `Storage::latest_log_index` — the last assigned index, `none` for an
empty log. -/
def Storage.latest_log_index (s : Storage) (room_id : Nat) : Option Nat :=
  if (s.frames room_id).isEmpty then none else some ((s.frames room_id).length - 1)

/-- `Storage::load_mls_state`. -/
def Storage.load_mls_state (s : Storage) (room_id : Nat) : Option MlsGroupState :=
  s.mls_states room_id

/-- `Storage::store_frame(room, expected_index, frame)` — compare-and-set
append (§5): succeeds exactly when the expected index is the next free
position; otherwise `Conflict`. -/
def Storage.store_frame (s : Storage) (room_id expected_index : Nat) (f : Frame) :
    Option Storage :=
  if expected_index = (s.frames room_id).length then
    some { s with
           frames := fun r => if r = room_id then s.frames room_id ++ [f] else s.frames r }
  else none

/-! ## Sequencer

`sequencer.rs` is not among the provided sources (only its callers and
the harness tests are).  Modelled from the spec (§4.5.2): validate epoch
and membership against the stored MLS state, assign
`next_log_index` — recovered from storage's latest index + 1 when the
in-memory counter is cold — to accepted frames, and emit
`AcceptFrame`/`StoreFrame`/`BroadcastToRoom` in that order; rejected
frames yield a single `RejectFrame` and consume no index.  The reject
reasons are the ones the harness test asserts on ("epoch mismatch",
"not in group"). -/

/-- `SequencerAction` (variants as matched in `room_manager.rs` and the
harness tests). -/
inductive SequencerAction
  | acceptFrame (room_id log_index : Nat) (frame : Frame)
  | storeFrame (room_id log_index : Nat) (frame : Frame)
  | broadcastToRoom (room_id : Nat) (frame : Frame)
  | rejectFrame (room_id : Nat) (reason : String) (original_frame : Frame)
  deriving DecidableEq, Repr

/-- Modelled from the spec: the sequencer's state — a per-room cached
`next_log_index` (`none` until first touched, then recovered from
storage). -/
structure Sequencer where
  next_log_index : Nat → Option Nat

/-- `Sequencer::new` — cold counters. -/
def Sequencer.new : Sequencer := ⟨fun _ => none⟩

/-- The next log index the sequencer will assign for a room: the cached
counter, or — when cold — storage's latest index + 1 (0 for an empty
log), exactly the §4.5.2 recovery rule. -/
def Sequencer.nextIndex (seq : Sequencer) (storage : Storage) (room_id : Nat) : Nat :=
  (seq.next_log_index room_id).getD
    (match storage.latest_log_index room_id with
     | some latest => latest + 1
     | none => 0)

/-- A frame with its header's log index overwritten (step 3 of §4.5.2:
"set frame.log_index := next_log_index"). -/
def Frame.withLogIndex (f : Frame) (idx : Nat) : Frame :=
  { f with header := { f.header with log_index := idx } }

/-- Modelled from the spec: `Sequencer::process_frame` (§4.5.2 steps
2–5): reject on epoch mismatch or non-membership without consuming an
index; otherwise stamp the next log index into the frame header,
increment the counter and emit accept/store/broadcast actions. -/
def Sequencer.process_frame (seq : Sequencer) (frame : Frame) (storage : Storage) :
    Sequencer × List SequencerAction :=
  let room_id := frame.header.room_id
  match storage.load_mls_state room_id with
  | none => (seq, [.rejectFrame room_id "no MLS state for room" frame])
  | some state =>
      if frame.header.epoch ≠ state.epoch then
        (seq, [.rejectFrame room_id "epoch mismatch" frame])
      else if ¬ state.is_member frame.header.sender_id then
        (seq, [.rejectFrame room_id "sender not in group" frame])
      else
        let idx := seq.nextIndex storage room_id
        let sequenced : Frame := frame.withLogIndex idx
        (⟨fun r => if r = room_id then some (idx + 1) else seq.next_log_index r⟩,
         [.acceptFrame room_id idx sequenced, .storeFrame room_id idx sequenced,
          .broadcastToRoom room_id sequenced])

/-- The harness test driver's execution of sequencer actions: every
`StoreFrame` is stored (`storage.store_frame(room, idx, frame)`); the
tests treat a conflict as a failure, and the sequencing invariant proved
below shows none occurs. -/
def execStoreActions (st : Storage) (acts : List SequencerAction) : Storage :=
  acts.foldl
    (fun st a =>
      match a with
      | .storeFrame room_id idx f => (st.store_frame room_id idx f).getD st
      | _ => st)
    st

/-- One driver iteration: sequence a frame, then persist its
`StoreFrame` actions (the loop body of the harness sequencer tests). -/
def seqStep (p : Sequencer × Storage) (frame : Frame) : Sequencer × Storage :=
  let (seq', acts) := p.1.process_frame frame p.2
  (seq', execStoreActions p.2 acts)

/-- A whole run of the sequencer over an inbound frame list. -/
def seqRun (p : Sequencer × Storage) (frames : List Frame) : Sequencer × Storage :=
  frames.foldl seqStep p

/-- Whether the sequencer accepts a frame, as a predicate of the (fixed)
MLS states only: the room's state exists, the epoch matches and the
sender is a member. -/
def frameAccepted (mls_states : Nat → Option MlsGroupState) (f : Frame) : Bool :=
  match mls_states f.header.room_id with
  | none => false
  | some state =>
      (f.header.epoch == state.epoch) && state.is_member f.header.sender_id

/-! ## Room manager (kalandra-server)

Embedded from `crates/kalandra-server/src/room_manager.rs`, which is
present in the sources.  The server-side `MlsGroup` it orchestrates is
modelled from the spec (§4.3): an epoch counter, the member list, and a
pending-commit flag; `merge_pending_commit` and a processed peer Commit
each advance the epoch by exactly 1. -/

/-- `RoomError` from `room_manager.rs`. -/
inductive RoomError
  | mlsValidation (reason : String)
  | sequencing (reason : String)
  | storage (reason : String)
  | roomNotFound (room_id : Nat)
  | roomAlreadyExists (room_id : Nat)
  | invalidEpoch (expected actual : Nat)
  | notMember (sender : Nat)
  deriving DecidableEq, Repr

/-- Modelled from the spec: the server-side `MlsGroup` (§4.3); the
kalandra-core adapter's source is missing. -/
structure MlsGroup where
  epoch : Nat
  members : List Nat
  pending_commit : Bool
  deriving DecidableEq, Repr

/-- Modelled from the spec: `merge_pending_commit` (§4.3) — finalising a
locally created commit advances the epoch by exactly 1. -/
def MlsGroup.merge_pending_commit (g : MlsGroup) : MlsGroup :=
  { g with epoch := g.epoch + 1, pending_commit := false }

/-- Modelled from the spec: `process_message` (§4.3) — merging a peer's
Commit advances the epoch by exactly 1; other MLS messages leave it
unchanged. -/
def MlsGroup.process_message (g : MlsGroup) (frame : Frame) : MlsGroup :=
  if frame.header.opcode_enum = some .commit then { g with epoch := g.epoch + 1 } else g

/-- Modelled from the spec: `export_group_state` (§4.3). -/
def MlsGroup.export_group_state (g : MlsGroup) (room_id : Nat) : MlsGroupState :=
  { room_id, epoch := g.epoch, members := g.members }

/-- `RoomAction` from `room_manager.rs` (`processed_at` instants embedded
as `Nat`). -/
inductive RoomAction
  | broadcast (room_id : Nat) (frame : Frame) (exclude_sender : Bool) (processed_at : Nat)
  | persistFrame (room_id log_index : Nat) (frame : Frame) (processed_at : Nat)
  | persistMlsState (room_id : Nat) (state : MlsGroupState) (processed_at : Nat)
  | reject (sender_id : Nat) (reason : String) (processed_at : Nat)
  | sendSyncResponse (sender_id : Nat) (room_id : Nat) (frames : List (List Nat))
      (has_more : Bool) (server_epoch : Nat) (processed_at : Nat)
  deriving DecidableEq, Repr

/-- `RoomManager` from `room_manager.rs` (group map embedded as an
association list; `room_metadata` maps room to creator). -/
structure RoomManager where
  groups : List (Nat × MlsGroup)
  sequencer : Sequencer
  room_metadata : List (Nat × Nat)

/-- Group lookup (`self.groups.get(&room_id)`). -/
def lookupGroup (groups : List (Nat × MlsGroup)) (room_id : Nat) : Option MlsGroup :=
  alistLookup groups room_id

/-- In-place group update (`self.groups.get_mut`). -/
def updateGroup (groups : List (Nat × MlsGroup)) (room_id : Nat) (g : MlsGroup) :
    List (Nat × MlsGroup) :=
  alistUpdate groups room_id g

/-- `RoomManager::epoch`. -/
def RoomManager.epoch (m : RoomManager) (room_id : Nat) : Option Nat :=
  (lookupGroup m.groups room_id).map (·.epoch)

/-- `RoomManager::validate_frame_basic` from `room_manager.rs`: epoch
must equal the cached group epoch; with stored MLS state, the sender
must be a member holding a key; without it, only epoch-0 frames pass. -/
def validate_frame_basic (frame : Frame) (group : MlsGroup)
    (mls_state : Option MlsGroupState) : Except RoomError Unit :=
  if frame.header.epoch ≠ group.epoch then
    .error (.invalidEpoch group.epoch frame.header.epoch)
  else
    match mls_state with
    | some state =>
        if ¬ state.is_member frame.header.sender_id then
          .error (.notMember frame.header.sender_id)
        else if (state.member_key frame.header.sender_id).isNone then
          .error (.mlsValidation "member key not found")
        else .ok ()
    | none =>
        if frame.header.epoch ≠ 0 then .error (.invalidEpoch 0 frame.header.epoch)
        else .ok ()

/-- Modelled from the spec: `MlsValidator::validate_signature` (§4.5.2
step 4); its source is missing.  A member's stored key validates its
frames. -/
def validate_signature (frame : Frame) (state : MlsGroupState) : Bool :=
  (state.member_key frame.header.sender_id).isSome

/-- `RoomManager::validate_sequenced_actions_signatures` from
`room_manager.rs`: rejected frames and MLS-internal opcodes
(Commit/Proposal/Welcome) are skipped, as are frames with unrecognised
opcodes; application frames are signature-checked when MLS state is
available. -/
def validate_sequenced_actions_signatures (acts : List SequencerAction)
    (mls_state : Option MlsGroupState) : Except RoomError Unit :=
  if acts.all (fun a =>
      match a with
      | .rejectFrame _ _ _ => true
      | .acceptFrame _ _ f | .storeFrame _ _ f | .broadcastToRoom _ f =>
          match f.header.opcode_enum with
          | none => true
          | some .commit => true
          | some .proposal => true
          | some .welcome => true
          | some _ =>
              match mls_state with
              | some state => validate_signature f state
              | none => true)
  then .ok ()
  else .error (.mlsValidation "signature validation failed")

/-- `RoomManager::process_frame` from `room_manager.rs`: room must exist;
basic validation; sequence; signature-check the sequenced actions;
convert sequencer actions (`AcceptFrame`/`StoreFrame` → `PersistFrame`,
`BroadcastToRoom` → `Broadcast` with `exclude_sender = false`,
`RejectFrame` → `Reject`); for a Commit, merge the pending commit if one
exists, else process the peer commit, and append `PersistMlsState`.
Because the Rust method takes `&mut self`, the embedding always returns
the successor state alongside the result — in particular the sequencer
mutation that precedes a signature-validation error is kept. -/
def RoomManager.process_frame (m : RoomManager) (frame : Frame) (now : Nat)
    (storage : Storage) : RoomManager × Except RoomError (List RoomAction) :=
  let room_id := frame.header.room_id
  match lookupGroup m.groups room_id with
  | none => (m, .error (.roomNotFound room_id))
  | some group =>
      let mls_state := storage.load_mls_state room_id
      match validate_frame_basic frame group mls_state with
      | .error e => (m, .error e)
      | .ok _ =>
          let is_commit := frame.header.opcode_enum = some .commit
          let (seq', seq_actions) := m.sequencer.process_frame frame storage
          let m₁ : RoomManager := { m with sequencer := seq' }
          match validate_sequenced_actions_signatures seq_actions mls_state with
          | .error e => (m₁, .error e)
          | .ok _ =>
              let room_actions := seq_actions.map (fun a =>
                match a with
                | .acceptFrame r i f => RoomAction.persistFrame r i f now
                | .storeFrame r i f => RoomAction.persistFrame r i f now
                | .broadcastToRoom r f => RoomAction.broadcast r f false now
                | .rejectFrame _ reason orig =>
                    RoomAction.reject orig.header.sender_id reason now)
              if is_commit then
                let group' := if group.pending_commit then group.merge_pending_commit
                              else group.process_message frame
                let m₂ : RoomManager :=
                  { m₁ with groups := updateGroup m₁.groups room_id group' }
                (m₂, .ok (room_actions ++
                  [.persistMlsState room_id (group'.export_group_state room_id) now]))
              else (m₁, .ok room_actions)

/-- `RoomManager::handle_sync_request` from `room_manager.rs`: room must
exist; load up to `limit` frames from `from_log_index`; serialise them;
`has_more` compares storage's latest index with the last loaded index
(`from - 1`, saturating, when nothing was loaded); reply with the room's
current epoch. -/
def RoomManager.handle_sync_request (m : RoomManager) (room_id sender_id : Nat)
    (from_log_index limit : Nat) (now : Nat) (storage : Storage) :
    Except RoomError RoomAction :=
  match lookupGroup m.groups room_id with
  | none => .error (.roomNotFound room_id)
  | some group =>
      let server_epoch := group.epoch
      let frames := storage.load_frames room_id from_log_index limit
      let frame_bytes := frames.map Frame.encode
      let latest_index := storage.latest_log_index room_id
      let last_loaded_index :=
        if frames.isEmpty then from_log_index - 1
        else from_log_index + frames.length - 1
      let has_more := latest_index.any (fun latest => last_loaded_index < latest)
      .ok (.sendSyncResponse sender_id room_id frame_bytes has_more server_epoch now)

/-! ## Connection/session state machine

`lockframe_core::connection::Connection`, the state machine the fuzz
target `connection_state_fuzzer.rs` drives, is not among the provided
sources.  It is modelled from the spec (§4.5.1: `Init → Pending →
Authenticated → Closed`; `Closed` is terminal; session_id immutable once
assigned; handshake and idle timeouts) and from the fuzz target's
documented invariants (Authenticated only via Hello → HelloReply;
duplicate Hello rejected; unknown opcodes never transition out of
spec). -/

/-- `ConnectionState` (§4.5.1). -/
inductive ConnectionState
  | init
  | pending
  | authenticated
  | closed
  deriving DecidableEq, Repr

/-- `ConnectionConfig` as the fuzz target constructs it (durations in
seconds, embedded as `Nat`). -/
structure ConnectionConfig where
  handshake_timeout : Nat
  idle_timeout : Nat
  heartbeat_interval : Nat
  deriving DecidableEq, Repr

/-- Modelled from the spec: the connection state machine's state —
current session state, the immutable-once-assigned session id, and the
time of the last activity (for the §4.5.1 timeouts). -/
structure Connection where
  state : ConnectionState
  session_id : Option Nat
  last_activity : Nat
  config : ConnectionConfig
  deriving DecidableEq, Repr

/-- `Connection::new` (fresh `Init` connection, no session id). -/
def Connection.mk0 (now : Nat) (config : ConnectionConfig) : Connection :=
  { state := .init, session_id := none, last_activity := now, config }

/-- The events the fuzz target drives the connection with: the local
hello, an inbound frame (its opcode, decoded or not, and a candidate
session id from a HelloReply payload), clock ticks, a timeout probe, and
the local close. -/
inductive ConnEvent
  | sendHello (now : Nat)
  | receiveFrame (op : Option Opcode) (frame_session_id : Nat) (now : Nat)
  | tick (now : Nat)
  | checkTimeout (now : Nat)
  | close

/-- Whether an event is the receipt of a `HelloReply` frame. -/
def ConnEvent.isHelloReply : ConnEvent → Bool
  | .receiveFrame (some .helloReply) _ _ => true
  | _ => false

/-- Whether an event is the local `send_hello`. -/
def ConnEvent.isSendHello : ConnEvent → Bool
  | .sendHello _ => true
  | _ => false

/-- Modelled from the spec: one transition of the connection state
machine (§4.5.1).  `send_hello` succeeds only in `Init` (→ `Pending`);
in `Pending` a `HelloReply` completes the handshake (→ `Authenticated`,
assigning the session id exactly once) while any other frame closes the
connection; in `Authenticated` data opcodes are valid, `Goodbye` closes,
a duplicate `Hello`/`HelloReply` and unknown opcodes are rejected
without a transition; timeouts (handshake in `Pending`, idle in
`Authenticated`) close; `close` closes; every event from `Closed` leaves
it `Closed`. -/
def connStep (c : Connection) (e : ConnEvent) : Connection :=
  match c.state, e with
  | .closed, _ => c
  | .init, .sendHello now => { c with state := .pending, last_activity := now }
  | _, .sendHello _ => c
  | .init, .receiveFrame _ _ _ => { c with state := .closed }
  | .pending, .receiveFrame (some .helloReply) sid now =>
      { c with state := .authenticated
               session_id := if c.session_id.isNone then some sid else c.session_id
               last_activity := now }
  | .pending, .receiveFrame _ _ _ => { c with state := .closed }
  | .authenticated, .receiveFrame (some .hello) _ _ => c
  | .authenticated, .receiveFrame (some .helloReply) _ _ => c
  | .authenticated, .receiveFrame none _ _ => c
  | .authenticated, .receiveFrame (some .goodbye) _ now =>
      { c with state := .closed, last_activity := now }
  | .authenticated, .receiveFrame (some _) _ now => { c with last_activity := now }
  | .pending, .tick now =>
      if c.last_activity + c.config.handshake_timeout < now then
        { c with state := .closed }
      else c
  | .authenticated, .tick now =>
      if c.last_activity + c.config.idle_timeout < now then
        { c with state := .closed }
      else c
  | .init, .tick _ => c
  | _, .checkTimeout _ => c
  | _, .close => { c with state := .closed }

/-- A run of the connection state machine over an event sequence. -/
def connRun (c : Connection) (es : List ConnEvent) : Connection :=
  es.foldl connStep c

/-! ## Server stream reader (kalandra-server)

Embedded from `handle_stream` in `crates/kalandra-server/src/lib.rs`,
which is present in the sources: per frame the loop issues a 128-byte
`read_exact` for the header, reinterprets it with zerocopy, and — only
when the declared `payload_size` is nonzero — a second `read_exact` of
exactly `payload_size` bytes, before handing the assembled bytes to
`Frame::decode`. -/

/-- The outcome of one iteration of `handle_stream`'s loop on one
inbound frame: the sizes of the `read_exact` calls issued, in order, and
the decoded frame that gets processed (`none` when `Frame::decode`
rejects the bytes and the loop breaks). -/
structure StreamStep where
  reads : List Nat
  processed : Option Frame
  deriving DecidableEq, Repr

/-- One iteration of the `handle_stream` loop over the stream's pending
bytes, from `kalandra-server/src/lib.rs`: read 128 header bytes, read
the declared payload only if it is nonzero, then `Frame::decode` the
assembled buffer. -/
def handle_stream_step (input : List Nat) : StreamStep :=
  let headerBytes := input.take 128
  let h := FrameHeader.fromBytes headerBytes
  let payload_size := h.payload_size
  let reads := if payload_size > 0 then [128, payload_size] else [128]
  let frameBytes := headerBytes ++ (input.drop 128).take payload_size
  { reads, processed := (Frame.decode frameBytes).toOption }

/-- Whether a room action is a `PersistFrame`. -/
def isPersistFrame : RoomAction → Bool
  | .persistFrame _ _ _ _ => true
  | _ => false

/-- Whether a room action is a `Broadcast`. -/
def isBroadcast : RoomAction → Bool
  | .broadcast _ _ _ _ => true
  | _ => false

/-- A sequence of `RoomManager::process_frame` calls (each with its own
clock reading and storage view), keeping the manager state threaded
through exactly as the Rust `&mut self` method does. -/
def RoomManager.processAll (m : RoomManager) (inputs : List (Frame × Nat × Storage)) :
    RoomManager :=
  inputs.foldl (fun m t => (m.process_frame t.1 t.2.1 t.2.2).1) m

/-- The per-room sequence of persisted log indices. -/
def storedLogIndices (st : Storage) (room_id : Nat) : List Nat :=
  (st.frames room_id).map (fun f => f.header.log_index)

/-! ## Concrete sample states

Small concrete instances used to evaluate the verified properties on
explicit inputs. -/

/-- A one-member room at epoch 0 whose single sender chain (leaf 0) is at
generation 0. -/
def sampleRoom : RoomState :=
  { mls_group := { epoch := 0, member_leaf_indices := [0], own_leaf_index := 0,
                   secret_seed := 0 }
    sender_keys := { epoch := 0, chains := [(0, { generation := 0, chain_key := 0 })] }
    my_leaf_index := 0 }

/-- A client with sender id 42 that is a member of room 5 only. -/
def sampleClient : Client :=
  { sender_id := 42, rooms := [(5, sampleRoom)], env_random := [] }

/-- An encrypted message as `sampleRoom`'s leaf-0 chain would produce it
for plaintext `[1, 2, 3]` with all-zero randomness. -/
def sampleEncrypted : EncryptedMessage :=
  { epoch := 0, sender_index := 0, generation := 0
    nonce := natToBeBytes 0 8 ++ List.replicate 16 0
    ciphertext := aeadSeal (ChainState.messageKey ⟨0, 0⟩) [1, 2, 3] }

/-- An inbound AppMessage frame for room 5 at the mismatching epoch 1. -/
def sampleMismatchFrame : Frame :=
  { header := { FrameHeader.new .appMessage with room_id := 5, epoch := 1 }
    payload := [] }

/-- An inbound AppMessage frame for room 5 at the matching epoch 0 whose
payload is `sampleEncrypted`, serialised; sender 9, log index 77,
timestamp 88. -/
def sampleGoodFrame : Frame :=
  { header := { FrameHeader.new .appMessage with
                room_id := 5, sender_id := 9,
                epoch := 0, log_index := 77, hlc_timestamp := 88 }
    payload := serialize_encrypted_message sampleEncrypted }

/-- A one-room server manager: room 5 at epoch 0 with members 42 and 9,
no pending commit, cold sequencer. -/
def sampleManager : RoomManager :=
  { groups := [(5, { epoch := 0, members := [42, 9], pending_commit := false })]
    sequencer := Sequencer.new
    room_metadata := [(5, 42)] }

/-- Storage holding MLS state for room 5 (epoch 0, members 42 and 9) and
no frames. -/
def sampleStorage : Storage :=
  Storage.init (fun r => if r = 5 then
    some { room_id := 5, epoch := 0, members := [42, 9] } else none)

/-- An inbound AppMessage frame from member 42 for room 5 at epoch 0. -/
def sampleServerFrame : Frame :=
  { header := { FrameHeader.new .appMessage with
                room_id := 5, sender_id := 42, epoch := 0 }
    payload := [1, 2, 3] }

/-- `sampleStorage` with two frames already persisted for room 5. -/
def sampleSyncStorage : Storage :=
  { frames := fun r => if r = 5 then [sampleServerFrame, sampleServerFrame] else []
    mls_states := sampleStorage.mls_states }

/-- An inbound Commit frame from member 42 for room 5 at epoch 0. -/
def sampleCommitFrame : Frame :=
  { header := { FrameHeader.new .commit with
                room_id := 5, sender_id := 42, epoch := 0 }
    payload := [9, 9] }

/-- The action list `RoomManager::process_frame` produces for
`sampleServerFrame` over `sampleStorage`: persist twice, then
broadcast. -/
def sampleProcessedActions : List RoomAction :=
  [RoomAction.persistFrame 5 0 (sampleServerFrame.withLogIndex 0) 0,
   RoomAction.persistFrame 5 0 (sampleServerFrame.withLogIndex 0) 0,
   RoomAction.broadcast 5 (sampleServerFrame.withLogIndex 0) false 0]

/-- The connection configuration the fuzz target uses: 5 s handshake
timeout, 10 s idle timeout, 3 s heartbeat. -/
def sampleConnConfig : ConnectionConfig := ⟨5, 10, 3⟩

/-- A connection in a given state with a given session id, at time 0,
under `sampleConnConfig`. -/
def sampleConn (st : ConnectionState) (sid : Option Nat) : Connection :=
  { state := st, session_id := sid, last_activity := 0, config := sampleConnConfig }

/-! # Shared lemmas -/

theorem alistLookup_cons {α : Type} (p : Nat × α) (t : List (Nat × α)) (k : Nat) :
    alistLookup (p :: t) k = if p.1 = k then some p.2 else alistLookup t k := by
  by_cases h : p.1 = k <;> simp [alistLookup, List.find?, h]

theorem alistUpdate_cons {α : Type} (p : Nat × α) (t : List (Nat × α)) (k : Nat) (v : α) :
    alistUpdate (p :: t) k v =
      (if p.1 = k then (p.1, v) else p) :: alistUpdate t k v := by
  simp [alistUpdate]

theorem alistLookup_update_self {α : Type} (l : List (Nat × α)) (k : Nat) (v : α)
    (h : (alistLookup l k).isSome) : alistLookup (alistUpdate l k v) k = some v := by
  induction l with
  | nil => simp [alistLookup] at h
  | cons p t ih =>
      rw [alistUpdate_cons]
      by_cases hk : p.1 = k
      · rw [if_pos hk, alistLookup_cons]
        simp [hk]
      · rw [if_neg hk, alistLookup_cons, if_neg hk]
        rw [alistLookup_cons, if_neg hk] at h
        exact ih h

theorem alistLookup_update_ne {α : Type} (l : List (Nat × α)) (k k' : Nat) (v : α)
    (h : k' ≠ k) : alistLookup (alistUpdate l k v) k' = alistLookup l k' := by
  induction l with
  | nil => simp [alistLookup, alistUpdate]
  | cons p t ih =>
      rw [alistUpdate_cons, alistLookup_cons (k := k'), alistLookup_cons (k := k')]
      by_cases hk : p.1 = k
      · have hne : ¬ p.1 = k' := fun hh => h (hh ▸ hk)
        rw [if_pos hk]
        simp only [hne, if_false]
        have : ¬ (p.1, v).1 = k' := hne
        simp [this, ih]
      · rw [if_neg hk]
        by_cases hk' : p.1 = k' <;> simp [hk', ih]

theorem natToBeBytes_length (v w : Nat) : (natToBeBytes v w).length = w := by
  simp [natToBeBytes]

theorem aeadSeal_length (key : Nat) (pt : List Nat) :
    (aeadSeal key pt).length = pt.length + 16 := by
  simp [aeadSeal]

theorem serialize_encrypted_message_length (e : EncryptedMessage) :
    (serialize_encrypted_message e).length = 20 + e.nonce.length + e.ciphertext.length := by
  simp [serialize_encrypted_message, natToBeBytes_length]
  omega

/-! # Claims -/

/-- C9: deserialising an AppMessage payload is total over arbitrary byte
strings — every input shorter than 44 bytes, or shorter than 44 plus the
`ciphertext_len` it declares at offset 40, is rejected with an error
(which `Client::handle_app_message` surfaces as `InvalidFrame`), and
every sufficiently long input yields exactly the `EncryptedMessage`
whose epoch, sender_index, generation, nonce and ciphertext are read at
the spec's fixed big-endian offsets 0, 8, 12, 16 and 44.  Totality
(never panicking) is inherent in the embedding: the function is a Lean
total function over all byte lists. -/
theorem deserialize_encrypted_message_total (data : List Nat) :
    (data.length < 44 →
      deserialize_encrypted_message data = .error "Frame too short") ∧
    (44 ≤ data.length → data.length < 44 + declaredCiphertextLen data →
      deserialize_encrypted_message data = .error "Truncated ciphertext") ∧
    (44 + declaredCiphertextLen data ≤ data.length →
      deserialize_encrypted_message data = .ok (specAppMessageFields data)) := by
  refine ⟨fun h => by simp [deserialize_encrypted_message, h], ?_, ?_⟩
  · intro h1 h2
    simp only [deserialize_encrypted_message]
    rw [if_neg (by omega), if_pos (by omega)]
  · intro h
    have h44 : ¬ data.length < 44 := by omega
    simp only [deserialize_encrypted_message]
    rw [if_neg h44, if_neg (by omega)]
    rfl

/-- Witness for C9 at the concrete all-zero 44-byte payload (declared
ciphertext length 0): deserialisation succeeds with the spec's fields. -/
theorem deserialize_encrypted_message_total_witness :
    deserialize_encrypted_message (List.replicate 44 0) =
      .ok (specAppMessageFields (List.replicate 44 0)) :=
  (deserialize_encrypted_message_total (List.replicate 44 0)).2.2 (by decide)

/-- C10: every MLS-layer `DeliverMessage` the client converts becomes a
`ClientAction::DeliverMessage` with the hard-coded `room_id = 0`,
`log_index = 0` and `timestamp = 0`, and every `RemoveGroup` becomes a
`RoomRemoved` with `room_id = 0` — regardless of the room the triggering
event belonged to (`convert_mls_actions` receives no room context at
all). -/
theorem convert_mls_actions_room_zero (acts : List MlsAction) (sender : Nat)
    (plaintext : List Nat) (reason : String) :
    (MlsAction.deliverMessage sender plaintext ∈ acts →
      ClientAction.deliverMessage 0 sender plaintext 0 0 ∈ convert_mls_actions acts) ∧
    (MlsAction.removeGroup reason ∈ acts →
      ClientAction.roomRemoved 0 reason ∈ convert_mls_actions acts) ∧
    convert_mls_actions [MlsAction.deliverMessage sender plaintext] =
      [ClientAction.deliverMessage 0 sender plaintext 0 0] ∧
    convert_mls_actions [MlsAction.removeGroup reason] =
      [ClientAction.roomRemoved 0 reason] := by
  refine ⟨fun h => ?_, fun h => ?_, rfl, rfl⟩
  · exact List.mem_filterMap.mpr ⟨_, h, rfl⟩
  · exact List.mem_filterMap.mpr ⟨_, h, rfl⟩

/-- Witness for C10 at a concrete two-action list: the converted actions
carry room 0 (and zero log index / timestamp). -/
theorem convert_mls_actions_room_zero_witness :
    ClientAction.deliverMessage 0 7 [1, 2] 0 0 ∈
      convert_mls_actions [MlsAction.removeGroup "gone", MlsAction.deliverMessage 7 [1, 2]] ∧
    ClientAction.roomRemoved 0 "gone" ∈
      convert_mls_actions [MlsAction.removeGroup "gone", MlsAction.deliverMessage 7 [1, 2]] :=
  ⟨(convert_mls_actions_room_zero _ 7 [1, 2] "gone").1 (by simp),
   (convert_mls_actions_room_zero _ 7 [1, 2] "gone").2.1 (by simp)⟩

/-- C3: for a room the client is a member of, an `AppMessage` frame whose
header epoch differs from the room's current MLS epoch makes
`Client::handle` fail with `EpochMismatch{expected := room epoch,
actual := frame epoch}` — an error classified non-fatal — and, being an
`Err`, it produces no actions; when the epochs agree and
deserialisation and decryption succeed, exactly one `DeliverMessage`
action is emitted, carrying the `log_index` and `hlc_timestamp` from
the frame header. -/
theorem client_app_message_epoch (c : Client) (frame : Frame) (room : RoomState)
    (hmem : lookupRoom c.rooms frame.header.room_id = some room)
    (hop : frame.header.opcode_enum = some .appMessage) :
    (frame.header.epoch ≠ room.mls_group.epoch →
      c.handle (.frameReceived frame) =
        .error (.epochMismatch room.mls_group.epoch frame.header.epoch) ∧
      (ClientError.epochMismatch room.mls_group.epoch frame.header.epoch).is_fatal
        = false) ∧
    (∀ encrypted plaintext keys',
      frame.header.epoch = room.mls_group.epoch →
      deserialize_encrypted_message frame.payload = .ok encrypted →
      room.sender_keys.decrypt encrypted = .ok (plaintext, keys') →
      ∃ c', c.handle (.frameReceived frame) =
        .ok ([.deliverMessage frame.header.room_id frame.header.sender_id plaintext
                frame.header.log_index frame.header.hlc_timestamp], c')) := by
  constructor
  · intro hne
    refine ⟨?_, rfl⟩
    simp [Client.handle, Client.handle_frame, hop, Client.handle_app_message, hmem, hne]
  · intro encrypted plaintext keys' heq hdes hdec
    refine ⟨{ c with rooms := updateRoom c.rooms frame.header.room_id
                        ({ room with sender_keys := keys' } : RoomState) }, ?_⟩
    simp [Client.handle, Client.handle_frame, hop, Client.handle_app_message, hmem,
      heq, hdes, hdec]

/-- Witness for C3 at concrete states: the mismatching frame (epoch 1
against room epoch 0) yields the non-fatal `EpochMismatch`, and the
matching frame is delivered with the header's log index 77 and
timestamp 88. -/
theorem client_app_message_epoch_witness :
    (sampleClient.handle (.frameReceived sampleMismatchFrame) =
        .error (.epochMismatch 0 1) ∧
      (ClientError.epochMismatch 0 1).is_fatal = false) ∧
    (∃ c', sampleClient.handle (.frameReceived sampleGoodFrame) =
        .ok ([.deliverMessage 5 9 [1, 2, 3] 77 88], c')) :=
  ⟨(client_app_message_epoch sampleClient sampleMismatchFrame sampleRoom rfl rfl).1
      (by decide),
   (client_app_message_epoch sampleClient sampleGoodFrame sampleRoom rfl rfl).2
      sampleEncrypted [1, 2, 3]
      (sampleRoom.sender_keys.setChain 0 (ChainState.step ⟨0, 0⟩))
      (by decide) (by rfl) (by rfl)⟩

/-- C4: for a room the client is a member of (with a sender chain for its
own leaf), `SendMessage` yields exactly one `Send` action whose frame
header carries the room id, the client's sender id, the room's current
MLS epoch and log index 0 (`FrameHeader::new` zero-initialises it for
the server to assign); the payload is the serialised encrypted message
and differs from the plaintext; the sender ratchet generation for the
own leaf advances by exactly 1.  For an unknown room the event fails
with `RoomNotFound` and produces no actions. -/
theorem client_send_message (c : Client) (room_id : Nat) (plaintext : List Nat) :
    (lookupRoom c.rooms room_id = none →
      c.handle (.sendMessage room_id plaintext) = .error (.roomNotFound room_id)) ∧
    (∀ room chain, lookupRoom c.rooms room_id = some room →
      room.sender_keys.chain room.my_leaf_index = some chain →
      ∃ encrypted c',
        c.handle (.sendMessage room_id plaintext) =
          .ok ([.send { header := { FrameHeader.new .appMessage with
                            room_id := room_id, sender_id := c.sender_id,
                            epoch := room.mls_group.epoch }
                        payload := serialize_encrypted_message encrypted }], c') ∧
        ({ FrameHeader.new .appMessage with
           room_id := room_id, sender_id := c.sender_id,
           epoch := room.mls_group.epoch } : FrameHeader).log_index = 0 ∧
        serialize_encrypted_message encrypted ≠ plaintext ∧
        (∃ room', lookupRoom c'.rooms room_id = some room' ∧
          room'.sender_keys.generation room.my_leaf_index =
            some (chain.generation + 1))) := by
  constructor
  · intro hnone
    simp [Client.handle, Client.handle_send_message, hnone]
  · intro room chain hmem hchain
    refine ⟨{ epoch := room.sender_keys.epoch, sender_index := room.my_leaf_index,
              generation := chain.generation,
              nonce := natToBeBytes chain.generation 8 ++
                (c.env_random ++ List.replicate NONCE_RANDOM_SIZE 0).take
                  NONCE_RANDOM_SIZE,
              ciphertext := aeadSeal chain.messageKey plaintext },
            { c with
              rooms := updateRoom c.rooms room_id
                { room with sender_keys :=
                    room.sender_keys.setChain room.my_leaf_index chain.step }
              env_random := c.env_random.drop NONCE_RANDOM_SIZE },
            ?_, rfl, ?_, ?_⟩
    · simp [Client.handle, Client.handle_send_message, hmem,
        SenderKeyStore.encrypt, hchain]
    · intro hcontra
      have hlen := congrArg List.length hcontra
      simp [serialize_encrypted_message_length, natToBeBytes_length,
        aeadSeal_length, NONCE_RANDOM_SIZE] at hlen
      omega
    · have hsome : (alistLookup c.rooms room_id).isSome := by
        rw [show alistLookup c.rooms room_id = some room from hmem]; rfl
      have hcsome : (alistLookup room.sender_keys.chains room.my_leaf_index).isSome := by
        rw [show alistLookup room.sender_keys.chains room.my_leaf_index = some chain
          from hchain]; rfl
      refine ⟨{ room with sender_keys :=
                  room.sender_keys.setChain room.my_leaf_index chain.step }, ?_, ?_⟩
      · exact alistLookup_update_self c.rooms room_id _ hsome
      · show ((alistLookup (alistUpdate room.sender_keys.chains room.my_leaf_index
            chain.step) room.my_leaf_index).map (·.generation)) = _
        rw [alistLookup_update_self room.sender_keys.chains room.my_leaf_index _ hcsome]
        rfl

/-- Witness for C4 at the concrete client: sending to the unknown room 6
fails with `RoomNotFound`, and sending `[1, 2, 3]` to room 5 produces
the single encrypted `Send` with the ratchet advanced to generation
1. -/
theorem client_send_message_witness :
    (sampleClient.handle (.sendMessage 6 [1, 2, 3]) = .error (.roomNotFound 6)) ∧
    (∃ encrypted c',
      sampleClient.handle (.sendMessage 5 [1, 2, 3]) =
        .ok ([.send { header := { FrameHeader.new .appMessage with
                          room_id := 5, sender_id := 42, epoch := 0 }
                      payload := serialize_encrypted_message encrypted }], c') ∧
      ({ FrameHeader.new .appMessage with
         room_id := 5, sender_id := 42, epoch := 0 } : FrameHeader).log_index = 0 ∧
      serialize_encrypted_message encrypted ≠ [1, 2, 3] ∧
      (∃ room', lookupRoom c'.rooms 5 = some room' ∧
        room'.sender_keys.generation 0 = some 1)) :=
  ⟨(client_send_message sampleClient 6 [1, 2, 3]).1 (by decide),
   (client_send_message sampleClient 5 [1, 2, 3]).2 sampleRoom ⟨0, 0⟩
     (by decide) (by decide)⟩

/-- C5: for an existing room, `handle_sync_request(from, limit)` returns a
single `SendSyncResponse` whose frames are the stored frames starting at
`from_log_index` — at most `limit` many, in storage (log-index) order —
whose `server_epoch` is the room's current epoch, and whose `has_more`
is true exactly when the latest stored log index exceeds the index of
the last loaded frame; an unknown room fails with `RoomNotFound`. -/
theorem sync_request_spec (m : RoomManager) (room_id sender_id : Nat)
    (from_log_index limit now : Nat) (storage : Storage) :
    (lookupGroup m.groups room_id = none →
      m.handle_sync_request room_id sender_id from_log_index limit now storage =
        .error (.roomNotFound room_id)) ∧
    (∀ group, lookupGroup m.groups room_id = some group →
      ∃ has_more,
        m.handle_sync_request room_id sender_id from_log_index limit now storage =
          .ok (.sendSyncResponse sender_id room_id
            ((((storage.frames room_id).drop from_log_index).take limit).map Frame.encode)
            has_more group.epoch now) ∧
        (((storage.frames room_id).drop from_log_index).take limit).length ≤ limit ∧
        ((((storage.frames room_id).drop from_log_index).take limit) ≠ [] →
          (has_more = true ↔
            from_log_index +
                (((storage.frames room_id).drop from_log_index).take limit).length - 1 <
              (storage.frames room_id).length - 1))) := by
  constructor
  · intro hnone
    simp [RoomManager.handle_sync_request, hnone]
  · intro group hg
    refine ⟨(storage.latest_log_index room_id).any (fun latest =>
        (if (storage.load_frames room_id from_log_index limit).isEmpty
         then from_log_index - 1
         else from_log_index +
            (storage.load_frames room_id from_log_index limit).length - 1) < latest),
      ?_, List.length_take_le _ _, ?_⟩
    · unfold RoomManager.handle_sync_request
      rw [hg]
      rfl
    · intro hne
      have hxs : ¬ (storage.frames room_id) = [] := by
        intro h0
        exact hne (by simp [h0])
      have hlat : storage.latest_log_index room_id =
          some ((storage.frames room_id).length - 1) := by
        simp [Storage.latest_log_index, List.isEmpty_iff, hxs]
      have hempty : (((storage.frames room_id).drop from_log_index).take limit).isEmpty
          = false := by
        simp [List.isEmpty_iff, hne]
      simp [Storage.load_frames, hlat, hempty]

/-- Witness for C5: room 6 is unknown to `sampleManager`
(`RoomNotFound`); a sync for room 5 over `sampleSyncStorage` (two stored
frames) with limit 1 returns the first frame with `has_more` deciding
`0 < 1`. -/
theorem sync_request_spec_witness :
    sampleManager.handle_sync_request 6 7 0 3 0 sampleStorage =
      .error (.roomNotFound 6) ∧
    ∃ has_more,
      sampleManager.handle_sync_request 5 7 0 1 0 sampleSyncStorage =
        .ok (.sendSyncResponse 7 5
          ((((sampleSyncStorage.frames 5).drop 0).take 1).map Frame.encode)
          has_more 0 0) ∧
      (has_more = true ↔
        0 + (((sampleSyncStorage.frames 5).drop 0).take 1).length - 1 <
          (sampleSyncStorage.frames 5).length - 1) := by
  refine ⟨(sync_request_spec sampleManager 6 7 0 3 0 sampleStorage).1 rfl, ?_⟩
  obtain ⟨hm, h1, _h2, h3⟩ :=
    (sync_request_spec sampleManager 5 7 0 1 0 sampleSyncStorage).2 _ rfl
  exact ⟨hm, h1, h3 (by decide)⟩

theorem sequencer_actions_shape (seq : Sequencer) (frame : Frame) (storage : Storage) :
    (∃ reason, (seq.process_frame frame storage).2 =
      [.rejectFrame frame.header.room_id reason frame]) ∨
    (∃ idx sequenced, (seq.process_frame frame storage).2 =
      [.acceptFrame frame.header.room_id idx sequenced,
       .storeFrame frame.header.room_id idx sequenced,
       .broadcastToRoom frame.header.room_id sequenced]) := by
  rcases hms : storage.load_mls_state frame.header.room_id with _ | state
  · exact .inl ⟨"no MLS state for room", by simp [Sequencer.process_frame, hms]⟩
  · by_cases he : frame.header.epoch = state.epoch
    · by_cases hm : state.is_member frame.header.sender_id = true
      · exact .inr ⟨seq.nextIndex storage frame.header.room_id,
          frame.withLogIndex (seq.nextIndex storage frame.header.room_id),
          by simp [Sequencer.process_frame, hms, he, hm]⟩
      · exact .inl ⟨"sender not in group", by simp [Sequencer.process_frame, hms, he, hm]⟩
    · exact .inl ⟨"epoch mismatch", by simp [Sequencer.process_frame, hms, he]⟩

/-- C6: whenever `RoomManager::process_frame` succeeds, every
`PersistFrame` action in the returned list sits strictly before every
`Broadcast` action, and every `Broadcast` carries
`exclude_sender = false` — the original sender receives the ordered copy
of its own frame. -/
theorem process_frame_persist_before_broadcast (m : RoomManager) (frame : Frame)
    (now : Nat) (storage : Storage) (actions : List RoomAction)
    (h : (m.process_frame frame now storage).2 = .ok actions) :
    (∀ i j (hi : i < actions.length) (hj : j < actions.length),
      isPersistFrame (actions.get ⟨i, hi⟩) = true →
      isBroadcast (actions.get ⟨j, hj⟩) = true → i < j) ∧
    (∀ room_id f ex t, RoomAction.broadcast room_id f ex t ∈ actions → ex = false) := by
  unfold RoomManager.process_frame at h
  rcases hlg : lookupGroup m.groups frame.header.room_id with _ | group
  · simp only [hlg] at h
    exact absurd h (by simp)
  simp only [hlg] at h
  rcases hvb : validate_frame_basic frame group
      (storage.load_mls_state frame.header.room_id) with e | u
  · simp only [hvb] at h
    exact absurd h (by simp)
  simp only [hvb] at h
  rw [show m.sequencer.process_frame frame storage =
      ((m.sequencer.process_frame frame storage).1,
       (m.sequencer.process_frame frame storage).2) from rfl] at h
  rcases sequencer_actions_shape m.sequencer frame storage with
    ⟨reason, hs⟩ | ⟨idx, sequenced, hs⟩
  all_goals rw [hs] at h
  all_goals try dsimp only at h
  all_goals split at h
  all_goals try dsimp only at h
  all_goals try exact Except.noConfusion h
  all_goals split at h
  all_goals try dsimp only at h
  all_goals simp only [List.map_cons, List.map_nil, List.cons_append, List.nil_append,
    Except.ok.injEq] at h
  all_goals subst h
  all_goals constructor
  all_goals
    first
      | (intro i j hi hj hp hb
         simp only [List.length_cons, List.length_nil] at hi hj
         interval_cases i <;> interval_cases j <;>
           first
             | omega
             | simp_all [isPersistFrame, isBroadcast, List.get])
      | (intro r f ex t hmem
         simp_all [isBroadcast])

/-- Witness for C6 at the concrete manager: the valid member frame is
accepted, and in the resulting action list the persists precede the
broadcast, which does not exclude the sender. -/
theorem process_frame_persist_before_broadcast_witness :
    (∀ i j (hi : i < sampleProcessedActions.length)
        (hj : j < sampleProcessedActions.length),
      isPersistFrame (sampleProcessedActions.get ⟨i, hi⟩) = true →
      isBroadcast (sampleProcessedActions.get ⟨j, hj⟩) = true → i < j) ∧
    (∀ room_id f ex t,
      RoomAction.broadcast room_id f ex t ∈ sampleProcessedActions → ex = false) :=
  process_frame_persist_before_broadcast sampleManager sampleServerFrame 0 sampleStorage
    sampleProcessedActions (by rfl)

theorem process_frame_epoch_step (m : RoomManager) (frame : Frame) (now : Nat)
    (storage : Storage) (room_id : Nat) :
    ((m.process_frame frame now storage).1.epoch room_id = m.epoch room_id) ∨
    (∃ e, m.epoch room_id = some e ∧
      (m.process_frame frame now storage).1.epoch room_id = some (e + 1)) := by
  unfold RoomManager.process_frame
  rcases hlg : lookupGroup m.groups frame.header.room_id with _ | group
  · simp only [hlg]
    left; trivial
  simp only [hlg]
  rcases hvb : validate_frame_basic frame group
      (storage.load_mls_state frame.header.room_id) with e | u
  · simp only [hvb]
    left; trivial
  simp only [hvb]
  rw [show m.sequencer.process_frame frame storage =
      ((m.sequencer.process_frame frame storage).1,
       (m.sequencer.process_frame frame storage).2) from rfl]
  try dsimp only
  rcases hvs : validate_sequenced_actions_signatures
      (m.sequencer.process_frame frame storage).2
      (storage.load_mls_state frame.header.room_id) with e | u
  · simp only [hvs]
    left; trivial
  simp only [hvs]
  by_cases hic : frame.header.opcode_enum = some Opcode.commit
  · rw [if_pos hic]
    by_cases hr : room_id = frame.header.room_id
    · subst hr
      right
      refine ⟨group.epoch, ?_, ?_⟩
      · simp [RoomManager.epoch, hlg]
      · dsimp only [RoomManager.epoch]
        rw [show lookupGroup (updateGroup m.groups frame.header.room_id
              (if group.pending_commit = true then group.merge_pending_commit
               else group.process_message frame)) frame.header.room_id =
            some (if group.pending_commit = true then group.merge_pending_commit
                  else group.process_message frame) from
          alistLookup_update_self m.groups frame.header.room_id _
            (by rw [show alistLookup m.groups frame.header.room_id = some group
                from hlg]; rfl)]
        by_cases hp : group.pending_commit = true <;>
          simp [hp, MlsGroup.merge_pending_commit, MlsGroup.process_message, hic]
    · left
      dsimp only [RoomManager.epoch]
      rw [show lookupGroup (updateGroup m.groups frame.header.room_id
            (if group.pending_commit = true then group.merge_pending_commit
             else group.process_message frame)) room_id =
          lookupGroup m.groups room_id from
        alistLookup_update_ne m.groups frame.header.room_id room_id _ hr]
  · rw [if_neg hic]
    left; trivial

theorem epoch_mono_run (m : RoomManager) (inputs : List (Frame × Nat × Storage))
    (room_id e : Nat) (h : m.epoch room_id = some e) :
    ∃ e', (m.processAll inputs).epoch room_id = some e' ∧ e ≤ e' := by
  induction inputs generalizing m e with
  | nil => exact ⟨e, h, le_rfl⟩
  | cons t ts ih =>
      rcases process_frame_epoch_step m t.1 t.2.1 t.2.2 room_id with
        hstep | ⟨e0, he0, hstep⟩
      · exact ih _ e (by rw [show ((m.process_frame t.1 t.2.1 t.2.2).1.epoch room_id)
          = m.epoch room_id from hstep, h])
      · have he : e0 = e := by
          rw [h] at he0
          exact (Option.some.injEq _ _).mp he0.symm
        obtain ⟨e', h1, h2⟩ := ih _ (e0 + 1) hstep
        exact ⟨e', h1, by omega⟩

/-- C2: for a room the server manages, a successfully processed Commit
frame advances that room's epoch by exactly 1 — via
`merge_pending_commit` when the commit was locally pending, via
`process_message` for a peer commit — while non-Commit frames never
change the epoch (whatever the outcome); and over any sequence of
processed frames the room's epoch is non-decreasing. -/
theorem process_frame_epoch (m : RoomManager) (frame : Frame) (now : Nat)
    (storage : Storage) (g : MlsGroup)
    (h : lookupGroup m.groups frame.header.room_id = some g) :
    ((m.process_frame frame now storage).2.isOk = true →
      frame.header.opcode_enum = some Opcode.commit →
      (m.process_frame frame now storage).1.epoch frame.header.room_id =
        some (g.epoch + 1)) ∧
    (frame.header.opcode_enum ≠ some Opcode.commit →
      (m.process_frame frame now storage).1.epoch frame.header.room_id =
        some g.epoch) ∧
    (∀ inputs room_id e, m.epoch room_id = some e →
      ∃ e', (m.processAll inputs).epoch room_id = some e' ∧ e ≤ e') := by
  refine ⟨?_, ?_, fun inputs room_id e he => epoch_mono_run m inputs room_id e he⟩
  · intro hok hic
    unfold RoomManager.process_frame at hok ⊢
    simp only [h] at hok ⊢
    rcases hvb : validate_frame_basic frame g
        (storage.load_mls_state frame.header.room_id) with e | u <;>
      simp only [hvb] at hok ⊢
    · exact absurd hok (by simp [Except.isOk, Except.toBool])
    rw [show m.sequencer.process_frame frame storage =
        ((m.sequencer.process_frame frame storage).1,
         (m.sequencer.process_frame frame storage).2) from rfl] at hok ⊢
    try dsimp only at hok ⊢
    rcases hvs : validate_sequenced_actions_signatures
        (m.sequencer.process_frame frame storage).2
        (storage.load_mls_state frame.header.room_id) with e | u <;>
      simp only [hvs] at hok ⊢
    · exact absurd hok (by simp [Except.isOk, Except.toBool])
    rw [if_pos hic]
    dsimp only [RoomManager.epoch]
    rw [show lookupGroup (updateGroup m.groups frame.header.room_id
          (if g.pending_commit = true then g.merge_pending_commit
           else g.process_message frame)) frame.header.room_id =
        some (if g.pending_commit = true then g.merge_pending_commit
              else g.process_message frame) from
      alistLookup_update_self m.groups frame.header.room_id _
        (by rw [show alistLookup m.groups frame.header.room_id = some g from h]; rfl)]
    by_cases hp : g.pending_commit = true <;>
      simp [hp, MlsGroup.merge_pending_commit, MlsGroup.process_message, hic]
  · intro hic
    unfold RoomManager.process_frame
    simp only [h]
    rcases hvb : validate_frame_basic frame g
        (storage.load_mls_state frame.header.room_id) with e | u <;>
      simp only [hvb]
    · simp [RoomManager.epoch, h]
    rw [show m.sequencer.process_frame frame storage =
        ((m.sequencer.process_frame frame storage).1,
         (m.sequencer.process_frame frame storage).2) from rfl]
    try dsimp only
    rcases hvs : validate_sequenced_actions_signatures
        (m.sequencer.process_frame frame storage).2
        (storage.load_mls_state frame.header.room_id) with e | u <;>
      simp only [hvs]
    · simp [RoomManager.epoch, h]
    rw [if_neg hic]
    simp [RoomManager.epoch, h]

/-- Witness for C2 at the concrete manager: processing the Commit frame
moves room 5 from epoch 0 to epoch 1, the non-Commit member frame
leaves the epoch at 0, and the empty processed sequence keeps the epoch
non-decreasing. -/
theorem process_frame_epoch_witness :
    (sampleManager.process_frame sampleCommitFrame 0 sampleStorage).1.epoch 5 =
      some 1 ∧
    (sampleManager.process_frame sampleServerFrame 0 sampleStorage).1.epoch 5 =
      some 0 ∧
    (∃ e', (sampleManager.processAll []).epoch 5 = some e' ∧ 0 ≤ e') :=
  ⟨(process_frame_epoch sampleManager sampleCommitFrame 0 sampleStorage
      ⟨0, [42, 9], false⟩ (by rfl)).1 (by rfl) (by rfl),
   (process_frame_epoch sampleManager sampleServerFrame 0 sampleStorage
      ⟨0, [42, 9], false⟩ (by rfl)).2.1 (by decide),
   (process_frame_epoch sampleManager sampleCommitFrame 0 sampleStorage
      ⟨0, [42, 9], false⟩ (by rfl)).2.2 [] 5 0 (by rfl)⟩

/-- C8 counterexample: a frame whose header declares `payload_size = 0`
(e.g. a bare Ping) makes `handle_stream` issue a single read — the
128-byte header read — because the source guards the payload read with
`if payload_size > 0`; the claim's "exactly two reads" is false for
such frames. -/
theorem handle_stream_two_reads_cx :
    (handle_stream_step (FrameHeader.encode (FrameHeader.new .ping))).reads.length
      ≠ 2 := by decide

/-- C8 (amended): per inbound frame the server's reader issues the fixed
128-byte header read and then, exactly when the declared `payload_size`
is nonzero, one further read of exactly `payload_size` bytes (so at most
two reads, and never a read whose size disagrees with the header); and
any frame whose header declares `payload_size` above the configured
maximum (1 MiB) is rejected by `Frame::decode` and never processed. -/
theorem handle_stream_reads_spec (input : List Nat) :
    ((FrameHeader.fromBytes (input.take 128)).payload_size > 0 →
      (handle_stream_step input).reads =
        [128, (FrameHeader.fromBytes (input.take 128)).payload_size]) ∧
    ((FrameHeader.fromBytes (input.take 128)).payload_size = 0 →
      (handle_stream_step input).reads = [128]) ∧
    ((FrameHeader.fromBytes (input.take 128)).payload_size > MAX_PAYLOAD →
      (handle_stream_step input).processed = none) := by
  refine ⟨?_, ?_, ?_⟩
  · intro h
    simp [handle_stream_step, h]
  · intro h
    simp [handle_stream_step, h]
  · intro h
    simp only [handle_stream_step]
    by_cases hlen : (input.take 128 ++
        (input.drop 128).take (FrameHeader.fromBytes (input.take 128)).payload_size).length
        < 128
    · unfold Frame.decode
      rw [if_pos hlen]
      rfl
    · have hil : 128 ≤ input.length := by
        simp only [List.length_append, List.length_take, List.length_drop] at hlen
        omega
      have htake : (input.take 128 ++
          (input.drop 128).take
            (FrameHeader.fromBytes (input.take 128)).payload_size).take 128 =
          input.take 128 := by
        rw [List.take_append_of_le_length (by simp [List.length_take]; omega)]
        simp [List.take_take]
      unfold Frame.decode
      rw [if_neg hlen, htake]
      try dsimp only
      split
      · rfl
      · split
        · rfl
        · split
          · rfl
          · rfl

/-- Witness for C8's amended statement: a Ping frame with a 1-byte
payload yields exactly the reads `[128, 1]`; a bare Pong header yields
the single header read; a header declaring a payload of 1 MiB + 1 is
rejected and not processed. -/
theorem handle_stream_reads_spec_witness :
    (handle_stream_step (Frame.encode
        { header := FrameHeader.new .ping, payload := [7] })).reads = [128, 1] ∧
    (handle_stream_step (FrameHeader.encode (FrameHeader.new .pong))).reads = [128] ∧
    (handle_stream_step (FrameHeader.encode
        { FrameHeader.new .ping with payload_size := 1048577 })).processed = none :=
  ⟨(handle_stream_reads_spec (Frame.encode
      { header := FrameHeader.new .ping, payload := [7] })).1 (by decide),
   (handle_stream_reads_spec (FrameHeader.encode (FrameHeader.new .pong))).2.1
      (by decide),
   (handle_stream_reads_spec (FrameHeader.encode
      { FrameHeader.new .ping with payload_size := 1048577 })).2.2 (by decide)⟩

theorem connStep_closed_terminal (c : Connection) (e : ConnEvent)
    (h : c.state = .closed) : (connStep c e).state = .closed := by
  unfold connStep
  rw [h]
  rcases e with now | ⟨op, sid, now⟩ | now | now | _ <;>
    (try rcases op with _ | oc) <;>
    (try cases oc) <;>
    exact h

theorem connStep_session_id (c : Connection) (e : ConnEvent) (v : Nat)
    (h : c.session_id = some v) : (connStep c e).session_id = some v := by
  unfold connStep
  rcases hs : c.state <;>
    rcases e with now | ⟨op, sid, now⟩ | now | now | _ <;>
    (try rcases op with _ | oc) <;>
    (try cases oc) <;>
    simp only [hs, h] <;>
    (try split) <;>
    simp_all

theorem connStep_authenticated_from (c : Connection) (e : ConnEvent)
    (h : (connStep c e).state = .authenticated) :
    c.state = .authenticated ∨ (c.state = .pending ∧ e.isHelloReply = true) := by
  unfold connStep at h
  rcases hs : c.state <;> simp only [hs] at h ⊢ <;>
    rcases e with now | ⟨op, sid, now⟩ | now | now | _ <;>
    (try rcases op with _ | oc) <;>
    (try cases oc) <;>
    (try dsimp only at h) <;>
    (try split at h) <;>
    simp_all [ConnEvent.isHelloReply]

theorem connStep_pending_from (c : Connection) (e : ConnEvent)
    (h : (connStep c e).state = .pending) :
    c.state = .pending ∨ (c.state = .init ∧ e.isSendHello = true) := by
  unfold connStep at h
  rcases hs : c.state <;> simp only [hs] at h ⊢ <;>
    rcases e with now | ⟨op, sid, now⟩ | now | now | _ <;>
    (try rcases op with _ | oc) <;>
    (try cases oc) <;>
    (try dsimp only at h) <;>
    (try split at h) <;>
    simp_all [ConnEvent.isSendHello]

/-- C7: for every sequence of connection events, once the connection is
`Closed` no later event — `send_hello` and `tick` included — leaves
`Closed`; an assigned session id never changes for the rest of the run;
and (as one-step inversion over every reachable transition)
`Authenticated` is entered only from `Pending` on a `HelloReply` frame,
while `Pending` is entered only from `Init` by `send_hello` — so the
`Hello → HelloReply` handshake is the sole route into
`Authenticated`. -/
theorem connection_state_safety (c : Connection) (es : List ConnEvent) :
    (c.state = .closed → (connRun c es).state = .closed) ∧
    (∀ v, c.session_id = some v → (connRun c es).session_id = some v) ∧
    (∀ s e, ((connStep s e).state = .authenticated →
        s.state = .authenticated ∨ (s.state = .pending ∧ e.isHelloReply = true)) ∧
      ((connStep s e).state = .pending →
        s.state = .pending ∨ (s.state = .init ∧ e.isSendHello = true))) := by
  refine ⟨?_, ?_, fun s e =>
    ⟨connStep_authenticated_from s e, connStep_pending_from s e⟩⟩
  · intro h
    induction es generalizing c with
    | nil => exact h
    | cons e es ih => exact ih (connStep c e) (connStep_closed_terminal c e h)
  · intro v h
    induction es generalizing c with
    | nil => exact h
    | cons e es ih => exact ih (connStep c e) (connStep_session_id c e v h)

/-- Witness for C7 at a concrete run: a closed connection stays closed
through a hello, a frame, and a tick; a connection holding session id 9
keeps it through a ping; and the one-step inversion holds at the
handshake transition. -/
theorem connection_state_safety_witness :
    (connRun (sampleConn .closed none)
        [.sendHello 1, .receiveFrame (some .ping) 0 2, .tick 3]).state = .closed ∧
    (connRun (sampleConn .authenticated (some 9))
        [.receiveFrame (some .ping) 0 1]).session_id = some 9 ∧
    ((connStep (sampleConn .pending none)
          (.receiveFrame (some .helloReply) 9 1)).state = .authenticated →
      (sampleConn .pending none).state = .authenticated ∨
      ((sampleConn .pending none).state = .pending ∧
        (ConnEvent.receiveFrame (some .helloReply) 9 1).isHelloReply = true)) :=
  ⟨(connection_state_safety (sampleConn .closed none)
      [.sendHello 1, .receiveFrame (some .ping) 0 2, .tick 3]).1 (by rfl),
   (connection_state_safety (sampleConn .authenticated (some 9))
      [.receiveFrame (some .ping) 0 1]).2.1 9 (by rfl),
   fun h => ((connection_state_safety (sampleConn .pending none) []).2.2
      (sampleConn .pending none) (.receiveFrame (some .helloReply) 9 1)).1 h⟩

theorem execStoreActions_mls (st : Storage) (acts : List SequencerAction) :
    (execStoreActions st acts).mls_states = st.mls_states := by
  induction acts generalizing st with
  | nil => rfl
  | cons a as ih =>
      rw [show execStoreActions st (a :: as) = execStoreActions
          (match a with
           | .storeFrame room_id idx fr => (st.store_frame room_id idx fr).getD st
           | _ => st) as from rfl]
      rw [ih]
      cases a <;> try rfl
      rename_i room idx fr
      dsimp only
      by_cases hif : idx = (st.frames room).length
      · simp [Storage.store_frame, hif]
      · simp [Storage.store_frame, hif]

theorem seqStep_cases (p : Sequencer × Storage) (f : Frame) :
    seqStep p f = p ∨
    seqStep p f = (⟨fun r => if r = f.header.room_id
        then some (p.1.nextIndex p.2 f.header.room_id + 1)
        else p.1.next_log_index r⟩,
      (p.2.store_frame f.header.room_id (p.1.nextIndex p.2 f.header.room_id)
        (f.withLogIndex (p.1.nextIndex p.2 f.header.room_id))).getD p.2) := by
  unfold seqStep Sequencer.process_frame
  rcases hm : p.2.load_mls_state f.header.room_id with _ | state
  · left
    simp [hm, execStoreActions]
  · by_cases he : f.header.epoch = state.epoch
    · by_cases hmem : state.is_member f.header.sender_id = true
      · right
        simp [hm, he, hmem, execStoreActions]
      · left
        simp [hm, he, hmem, execStoreActions]
    · left
      simp [hm, he, execStoreActions]

theorem seqStep_rejected (ms : Nat → Option MlsGroupState) (p : Sequencer × Storage)
    (f : Frame) (hms : p.2.mls_states = ms) (hrej : frameAccepted ms f = false) :
    seqStep p f = p := by
  unfold seqStep Sequencer.process_frame
  have hload : p.2.load_mls_state f.header.room_id = ms f.header.room_id := by
    rw [show p.2.load_mls_state f.header.room_id = p.2.mls_states f.header.room_id
      from rfl, hms]
  rcases hm : ms f.header.room_id with _ | state
  · rw [hm] at hload
    simp [hload, execStoreActions]
  · rw [hm] at hload
    unfold frameAccepted at hrej
    rw [hm] at hrej
    by_cases he : f.header.epoch = state.epoch
    · have hmem : state.is_member f.header.sender_id = false := by
        simp [he] at hrej
        exact hrej
      simp [hload, he, hmem, execStoreActions]
    · simp [hload, he, execStoreActions]

theorem seqStep_inv (p : Sequencer × Storage) (f : Frame)
    (hinv : ∀ room, storedLogIndices p.2 room = List.range (p.2.frames room).length ∧
      (∀ n, p.1.next_log_index room = some n → n = (p.2.frames room).length)) :
    ∀ room, storedLogIndices (seqStep p f).2 room =
        List.range ((seqStep p f).2.frames room).length ∧
      (∀ n, (seqStep p f).1.next_log_index room = some n →
        n = ((seqStep p f).2.frames room).length) := by
  rcases seqStep_cases p f with hc | hc
  · rw [hc]
    exact hinv
  · rw [hc]
    have hidx : p.1.nextIndex p.2 f.header.room_id =
        (p.2.frames f.header.room_id).length := by
      unfold Sequencer.nextIndex
      rcases hcach : p.1.next_log_index f.header.room_id with _ | n
      · unfold Storage.latest_log_index
        by_cases hemp : (p.2.frames f.header.room_id).isEmpty = true
        · rw [if_pos hemp]
          have : p.2.frames f.header.room_id = [] := by
            simpa [List.isEmpty_iff] using hemp
          simp [this]
        · rw [if_neg hemp]
          have hne : p.2.frames f.header.room_id ≠ [] := by
            simpa [List.isEmpty_iff] using hemp
          have hlen : 0 < (p.2.frames f.header.room_id).length :=
            List.length_pos.mpr hne
          simp
          omega
      · simpa using (hinv f.header.room_id).2 n hcach
    rw [hidx]
    have hstore : p.2.store_frame f.header.room_id (p.2.frames f.header.room_id).length
        (f.withLogIndex (p.2.frames f.header.room_id).length) =
        some { p.2 with frames := fun r => if r = f.header.room_id
          then p.2.frames f.header.room_id ++
            [f.withLogIndex (p.2.frames f.header.room_id).length]
          else p.2.frames r } := by
      unfold Storage.store_frame
      rw [if_pos rfl]
    rw [hstore]
    intro room
    by_cases hr : room = f.header.room_id
    · subst hr
      have h1 := (hinv f.header.room_id).1
      unfold storedLogIndices at h1
      constructor
      · unfold storedLogIndices
        simp only [Option.getD_some]
        simp [h1, Frame.withLogIndex, List.range_succ]
      · intro n hn
        simp only [Option.getD_some] at hn ⊢
        simp at hn ⊢
        omega
    · have h1 := (hinv room).1
      unfold storedLogIndices at h1
      constructor
      · unfold storedLogIndices
        simp only [Option.getD_some]
        simpa [hr] using h1
      · intro n hn
        simp only [Option.getD_some] at hn ⊢
        simp [hr] at hn ⊢
        exact (hinv room).2 n hn

theorem seqRun_inv (p : Sequencer × Storage) (frames : List Frame)
    (hinv : ∀ room, storedLogIndices p.2 room = List.range (p.2.frames room).length ∧
      (∀ n, p.1.next_log_index room = some n → n = (p.2.frames room).length)) :
    ∀ room, storedLogIndices (seqRun p frames).2 room =
        List.range ((seqRun p frames).2.frames room).length ∧
      (∀ n, (seqRun p frames).1.next_log_index room = some n →
        n = ((seqRun p frames).2.frames room).length) := by
  induction frames generalizing p with
  | nil => exact hinv
  | cons f fs ih => exact ih (seqStep p f) (seqStep_inv p f hinv)

theorem seqStep_mls (p : Sequencer × Storage) (f : Frame) :
    (seqStep p f).2.mls_states = p.2.mls_states := by
  show (execStoreActions p.2 (p.1.process_frame f p.2).2).mls_states = p.2.mls_states
  exact execStoreActions_mls p.2 (p.1.process_frame f p.2).2

theorem seqRun_filter (ms : Nat → Option MlsGroupState) (p : Sequencer × Storage)
    (frames : List Frame) (hms : p.2.mls_states = ms) :
    seqRun p frames = seqRun p (frames.filter (fun f => frameAccepted ms f)) := by
  induction frames generalizing p with
  | nil => rfl
  | cons f fs ih =>
      by_cases hf : frameAccepted ms f = true
      · rw [show seqRun p (f :: fs) = seqRun (seqStep p f) fs from rfl,
          List.filter_cons, if_pos (by simp [hf]),
          show seqRun p (f :: (fs.filter (fun f => frameAccepted ms f))) =
            seqRun (seqStep p f) (fs.filter (fun f => frameAccepted ms f)) from rfl]
        exact ih (seqStep p f) (by rw [seqStep_mls]; exact hms)
      · have hf' : frameAccepted ms f = false := by simpa using hf
        rw [show seqRun p (f :: fs) = seqRun (seqStep p f) fs from rfl,
          List.filter_cons, if_neg (by simp [hf']),
          seqStep_rejected ms p f hms hf']
        exact ih p hms

/-- C1: starting from an empty log, for every room the persisted log
indices after any run of the sequencer are exactly the consecutive
integers `0, 1, 2, …` (one per stored frame, no gaps, no duplicates),
under any interleaving of accepted and rejected frames; and the
persisted frame sequence equals the one produced by the same run with
every rejected frame (non-member or wrong epoch) deleted from the
input — a rejected frame neither consumes a log index nor perturbs the
log. -/
theorem sequencer_total_order (ms : Nat → Option MlsGroupState) (frames : List Frame)
    (room : Nat) :
    storedLogIndices (seqRun (Sequencer.new, Storage.init ms) frames).2 room =
      List.range ((seqRun (Sequencer.new, Storage.init ms) frames).2.frames room).length ∧
    (seqRun (Sequencer.new, Storage.init ms) frames).2.frames room =
      (seqRun (Sequencer.new, Storage.init ms)
        (frames.filter (fun f => frameAccepted ms f))).2.frames room := by
  constructor
  · exact (seqRun_inv (Sequencer.new, Storage.init ms) frames
      (fun _ => ⟨rfl, fun n hn => by simp [Sequencer.new] at hn⟩) room).1
  · rw [← seqRun_filter ms (Sequencer.new, Storage.init ms) frames rfl]

end Kalandra
